import Mathlib

/-!
Formal model of the document chunking and retrieval pipeline implemented by the
`NetlifyPDFService` class in `src/app.js`, together with theorems checking the
behavioural properties stated in the specification.

Modelling conventions:
* JavaScript numbers (relevance scores, weights such as `0.3`) are modelled as
  exact rationals `ℚ`; the accumulation order of the source is kept.
* JavaScript strings are Lean `String`s; operations (`toLowerCase`, `trim`,
  `split`, `includes`, regex-count with the `gi` flags) are modelled by
  executable functions on `List Char` defined below.  Keywords passed to
  `new RegExp(keyword, "gi")` are treated as literal text (the queries the
  pipeline splits into keywords are plain words), and the `i` flag is modelled
  by lower-casing both sides (exact for ASCII).
* Wall-clock data (`Date.now()` id suffixes, ISO timestamps) and the HTML
  strings produced for rendering (`fullContent`, `createFullContent`,
  `highlightQueryTerms`) are presentation-only and omitted from the records;
  no property of the specification mentions them.
* External collaborators (the Hugging Face embedding pipeline, the FAISS
  vector index, the text-generation model) are not part of this repository;
  they are modelled as abstract function parameters, with their contracts
  taken from the specification where a claim needs them.
* A JavaScript property access on an object that lacks the property yields
  `undefined`, and a further access on `undefined` throws a `TypeError`;
  fallible evaluations are therefore modelled in the `Except String` monad.
-/

namespace NetlifyPDFService

/-! ## String primitives (models of the JavaScript string operations used) -/

/-- Model of JavaScript `toLowerCase` on a single character (exact for ASCII). -/
def jsCharToLower (c : Char) : Char := c.toLower

/-- Model of JavaScript `String.prototype.toLowerCase` (exact for ASCII). -/
def jsToLower (s : String) : String := String.mk (s.data.map jsCharToLower)

/-- Whitespace characters recognised by `trim` and `\s` (ASCII fragment). -/
def jsIsWhitespace (c : Char) : Bool := c = ' ' || c = '\t' || c = '\n' || c = '\r'

/-- Model of JavaScript `String.prototype.trim`. -/
def jsTrim (s : String) : String :=
  String.mk (((s.data.dropWhile jsIsWhitespace).reverse.dropWhile jsIsWhitespace).reverse)

/-- Bool-valued model of JavaScript `String.prototype.includes`:
`containsSubstr needle hay` holds when `needle` occurs contiguously in `hay`. -/
def containsSubstr (needle : List Char) : List Char → Bool
  | [] => needle.isEmpty
  | c :: rest => needle.isPrefixOf (c :: rest) || containsSubstr needle rest

/-- Auxiliary counter for `countOccur`: scans the haystack left to right; the
`skip` argument models the regex `lastIndex` advancing past a found match, so
matches are counted non-overlapping exactly as `String.prototype.match` with a
global regex does. -/
def countOccurAux (needle : List Char) : List Char → Nat → Nat
  | [], _ => 0
  | _ :: rest, skip + 1 => countOccurAux needle rest skip
  | c :: rest, 0 =>
    if needle.isPrefixOf (c :: rest) then 1 + countOccurAux needle rest (needle.length - 1)
    else countOccurAux needle rest 0

/-- Model of `(chunkContent.match(new RegExp(keyword, "g")) || []).length`
for a literal `keyword`: the number of non-overlapping occurrences of
`needle` in `hay`, scanning left to right. -/
def countOccur (needle hay : List Char) : Nat :=
  if needle.isEmpty then 0 else countOccurAux needle hay 0

/-- Auxiliary state machine for splitting on runs of separator characters
(the semantics of JavaScript `split` with a one-or-more character-class regex
such as `/[.!?]+/` or `/\s+/`): `inRun` records whether the previous character
was a separator, `cur` accumulates the current piece reversed. -/
def splitRunsAux (p : Char → Bool) (inRun : Bool) (cur : List Char) :
    List Char → List (List Char)
  | [] => [cur.reverse]
  | c :: rest =>
    if p c then
      if inRun then splitRunsAux p true [] rest
      else cur.reverse :: splitRunsAux p true [] rest
    else splitRunsAux p false (c :: cur) rest

/-- Model of JavaScript `s.split(re)` where `re` matches one-or-more characters
satisfying `p` (e.g. `/[.!?]+/`): pieces between maximal separator runs,
including an empty leading or trailing piece when the string starts or ends
with a separator. -/
def splitOnRuns (p : Char → Bool) (s : String) : List String :=
  (splitRunsAux p false [] s.data).map String.mk

/-- Auxiliary for `jsSplitChar`: split at every single occurrence of `sep`. -/
def splitCharAux (sep : Char) (cur : List Char) : List Char → List (List Char)
  | [] => [cur.reverse]
  | c :: rest =>
    if c = sep then cur.reverse :: splitCharAux sep [] rest
    else splitCharAux sep (c :: cur) rest

/-- Model of JavaScript `s.split(" ")` (split at every single separator
character, keeping empty pieces). -/
def jsSplitChar (sep : Char) (s : String) : List String :=
  (splitCharAux sep [] s.data).map String.mk

/-- The terminal punctuation class `[.!?]` used by the chunker. -/
def isTerminalPunct (c : Char) : Bool := c = '.' || c = '!' || c = '?'

/-- Model of `text.split(/[.!?]+/)`. -/
def splitSentences (s : String) : List String := splitOnRuns isTerminalPunct s

/-- Model of `text.split(/\s+/)`. -/
def jsSplitWhitespace (s : String) : List String := splitOnRuns jsIsWhitespace s

/-- Case-insensitive containment: model of
`hay.toLowerCase().includes(pat.toLowerCase())` (and of testing the
case-insensitive regex `/pat/i` for a literal pattern). -/
def ciContains (hay pat : String) : Bool :=
  containsSubstr (jsToLower pat).data (jsToLower hay).data

/-- Model of testing the regex `/\d+/` against a string. -/
def containsDigit (s : String) : Bool := s.data.any (fun c => c.isDigit)

/-! ## Relevance scoring (`calculateRelevance`, src/app.js:687-711) -/

/-- Number of case-insensitive occurrences of `keyword` in `chunkContent`:
model of `(chunkContent.match(new RegExp(keyword, "gi")) || []).length`. -/
def keywordHits (chunkContent keyword : String) : Nat :=
  countOccur (jsToLower keyword).data (jsToLower chunkContent).data

/-- Model of `calculateRelevance(chunkContent, query, keywords)`
(src/app.js:687-711): per-keyword occurrence count times `0.3` for keywords of
length `> 2`, plus `0.5` when the lower-cased chunk contains the lower-cased
query verbatim, plus `0.1` when the chunk text is longer than 100 characters,
capped at `1.0`. -/
def calculateRelevance (chunkContent query : String) (keywords : List String) : ℚ :=
  let content := jsToLower chunkContent
  let score1 : ℚ := keywords.foldl
    (fun score keyword =>
      if keyword.length > 2 then
        score + (keywordHits chunkContent keyword : ℚ) * (3/10)
      else score) 0
  let score2 : ℚ :=
    if containsSubstr (jsToLower query).data content.data then score1 + 1/2 else score1
  let score3 : ℚ := if chunkContent.length > 100 then score2 + 1/10 else score2
  min score3 1

/-- The keyword-relevance score exactly as the specification words it: a
weighted sum of `0.3` per case-insensitive keyword occurrence (keywords of
length `> 2` only), a `0.5` verbatim-query bonus, a `0.1` length bonus for
chunks over 100 characters, capped at `1.0`.  Written from the specification
to be compared with `calculateRelevance`, which is translated from the code. -/
def keywordScoreSpec (chunkText query : String) (keywords : List String) : ℚ :=
  min ((3/10) *
        (((keywords.filter (fun k => k.length > 2)).map
          (fun k => (keywordHits chunkText k : ℚ))).sum)
      + (if containsSubstr (jsToLower query).data (jsToLower chunkText).data then (1/2 : ℚ) else 0)
      + (if chunkText.length > 100 then (1/10 : ℚ) else 0)) 1

lemma relevance_foldl_eq (chunkContent : String) (keywords : List String) (a : ℚ) :
    keywords.foldl
      (fun score keyword =>
        if keyword.length > 2 then
          score + (keywordHits chunkContent keyword : ℚ) * (3/10)
        else score) a
    = a + (3/10) *
        (((keywords.filter (fun k => k.length > 2)).map
          (fun k => (keywordHits chunkContent k : ℚ))).sum) := by
  induction keywords generalizing a with
  | nil => simp
  | cons k rest ih =>
    by_cases hk : k.length > 2
    · simp [List.filter_cons, hk, ih]
      ring
    · simp [List.filter_cons, hk, ih]

/-- Shared closed form of `calculateRelevance`. -/
lemma calculateRelevance_closed (chunkContent query : String) (keywords : List String) :
    calculateRelevance chunkContent query keywords
      = keywordScoreSpec chunkContent query keywords := by
  unfold calculateRelevance keywordScoreSpec
  simp only [relevance_foldl_eq]
  by_cases h1 : containsSubstr (jsToLower query).data (jsToLower chunkContent).data <;>
    by_cases h2 : chunkContent.length > 100 <;>
      simp [h1, h2] <;> ring_nf

lemma foldl_relevance_nonneg (chunkContent : String) (keywords : List String) {a : ℚ}
    (ha : 0 ≤ a) :
    0 ≤ keywords.foldl
      (fun score keyword =>
        if keyword.length > 2 then
          score + (keywordHits chunkContent keyword : ℚ) * (3/10)
        else score) a := by
  rw [relevance_foldl_eq]
  have : (0:ℚ) ≤ (((keywords.filter (fun k => k.length > 2)).map
      (fun k => (keywordHits chunkContent k : ℚ))).sum) := by
    apply List.sum_nonneg
    intro x hx
    obtain ⟨k, _, rfl⟩ := List.mem_map.mp hx
    positivity
  positivity

/-- Shared bounds: every `calculateRelevance` value lies in `[0, 1]`. -/
lemma calculateRelevance_mem_unit (chunkContent query : String) (keywords : List String) :
    0 ≤ calculateRelevance chunkContent query keywords
      ∧ calculateRelevance chunkContent query keywords ≤ 1 := by
  unfold calculateRelevance
  have h0 : (0:ℚ) ≤ keywords.foldl
      (fun score keyword =>
        if keyword.length > 2 then
          score + (keywordHits chunkContent keyword : ℚ) * (3/10)
        else score) 0 := foldl_relevance_nonneg chunkContent keywords le_rfl
  constructor
  · apply le_min _ (by norm_num)
    by_cases h1 : containsSubstr (jsToLower query).data (jsToLower chunkContent).data <;>
      by_cases h2 : chunkContent.length > 100 <;>
        simp [h1, h2] <;> linarith
  · exact min_le_right _ _

/-! ## Data model -/

/-- The `metadata` object attached to each chunk (src/app.js:351-357).  The
`timestamp` field is wall-clock data and is omitted. -/
structure ChunkMetadata where
  documentSection : String
  wordCount : Nat
  pageIndex : Nat
  sentenceIndex : Nat
deriving DecidableEq

/-- A text chunk as built by `createTextChunks` (src/app.js:345-358). -/
structure Chunk where
  id : String
  content : String
  pageNumber : Nat
  chunkNumber : Nat
  embedding : Option (List ℚ)
  metadata : ChunkMetadata
deriving DecidableEq

/-- A processed document (src/app.js:201-213).  The random/wall-clock `id`,
the formatted size string and the `timestamp` are omitted; fields not read by
the retrieval pipeline default so that test corpora stay concise. -/
structure Document where
  filename : String
  chunks : List Chunk
  size : Nat := 0
  content : String := ""
  pageCount : Nat := 1
  totalWords : Nat := 0
  status : String := "processed"
deriving DecidableEq

/-- One entry of the `pageTexts` array handed to `createTextChunks`
(src/app.js:261-265). -/
structure PageData where
  pageNumber : Nat
  text : String
  wordCount : Nat := 0
deriving DecidableEq

/-! ## Chunker (`createTextChunks`, src/app.js:303-372) -/

/-- Model of `getDocumentSection(pageIndex, sentenceIndex)`
(src/app.js:406-415); the `sentenceIndex` parameter is unused by the source
as well. -/
def getDocumentSection (pageIndex : Nat) (_sentenceIndex : Nat) : String :=
  if pageIndex = 0 then "Introduction"
  else if pageIndex < 3 then "Policy Guidelines"
  else if pageIndex < 6 then "Implementation Procedures"
  else if pageIndex < 9 then "Quality Standards"
  else "Compliance Requirements"

/-- Model of the sentence clean-up (src/app.js:321-324): trim, then append a
period when the (non-empty) sentence does not already end in terminal
punctuation.  After a split on `/[.!?]+/` the segment never contains terminal
punctuation, but the test is kept exactly as written. -/
def cleanSentence (sentence : String) : String :=
  let t := jsTrim sentence
  if t ≠ "" ∧ ¬(t.data.getLast? = some '.' ∨ t.data.getLast? = some '!'
      ∨ t.data.getLast? = some '?') then
    t ++ "."
  else t

/-- The sentences of one page retained by the chunker
(src/app.js:314): split on terminal punctuation, keep segments whose trimmed
length exceeds 10. -/
def pageFilteredSentences (pageText : String) : List String :=
  (splitSentences pageText).filter (fun s => (jsTrim s).length > 10)

/-- Builds the chunk record pushed at src/app.js:345-358.  `embeddings` models
`this.embeddings`: `none` when no embedding pipeline was loaded; when loaded,
the per-chunk call may itself fail, which the source catches and records as a
null embedding. -/
def mkChunk (embeddings : Option (String → Option (List ℚ))) (pageIndex : Nat)
    (page : PageData) (sentenceIndex : Nat) (chunkId : Nat) (cs : String) : Chunk :=
  { id := "chunk_" ++ toString chunkId
    content := cs
    pageNumber := page.pageNumber
    chunkNumber := chunkId + 1
    embedding := match embeddings with
      | none => none
      | some f => f cs
    metadata :=
      { documentSection := getDocumentSection pageIndex sentenceIndex
        wordCount := (jsSplitWhitespace cs).length
        pageIndex := pageIndex
        sentenceIndex := sentenceIndex } }

/-- The loop body processing one retained sentence (src/app.js:316-361):
state is `(chunkId, chunks so far)`. -/
def chunkStep (embeddings : Option (String → Option (List ℚ))) (pageIndex : Nat)
    (page : PageData) (st : Nat × List Chunk) (sip : Nat × String) : Nat × List Chunk :=
  let cs := cleanSentence sip.2
  if cs.length > 5 then
    (st.1 + 1, st.2 ++ [mkChunk embeddings pageIndex page sip.1 st.1 cs])
  else st

/-- Model of `createTextChunks(fullText, pageTexts)` (src/app.js:303-372).
The `fullText` argument is unused by the source loop (pages are processed
individually) and is omitted.  The trailing `addChunksToVectorDB` call only
copies data into the external index and does not alter the returned chunks. -/
def createTextChunks (embeddings : Option (String → Option (List ℚ)))
    (pageTexts : List PageData) : List Chunk :=
  (pageTexts.enum.foldl
    (fun st pip =>
      (pageFilteredSentences pip.2.text).enum.foldl (chunkStep embeddings pip.1 pip.2) st)
    ((0, []) : Nat × List Chunk)).2

/-! ## Context expansion and summaries -/

/-- Model of `getContextChunks(chunks, currentIndex, direction)`
(src/app.js:714-729): up to 2 chunks before (indices `max(0, i-2) .. i-1`) or
after (indices `i+1 .. min(length, i+3)-1`) the current one. -/
def getContextChunks (chunks : List Chunk) (currentIndex : Nat) (direction : String) :
    List Chunk :=
  if direction == "before" then
    (chunks.drop (currentIndex - 2)).take (min currentIndex 2)
  else
    (chunks.drop (currentIndex + 1)).take 2

/-- The semantic-variation table of `hasSemanticMatch` (src/app.js:824-832),
in source order. -/
def semanticVariationsQuery : List (String × List String) :=
  [("what is", ["definition", "refers to", "means", "is defined as"]),
   ("how many", ["number", "quantity", "amount", "count"]),
   ("when", ["date", "time", "schedule", "deadline"]),
   ("where", ["location", "place", "site", "area"]),
   ("who", ["person", "individual", "employee", "staff"]),
   ("cost", ["price", "fee", "expense", "budget"]),
   ("procedure", ["process", "method", "steps", "workflow"])]

/-- Model of `hasSemanticMatch(text, query)` (src/app.js:823-842): the first
table pattern contained in the lower-cased query decides; the function then
reports whether any of its variation terms occurs in the lower-cased text. -/
def hasSemanticMatch (text query : String) : Bool :=
  match semanticVariationsQuery.find?
      (fun e => containsSubstr e.1.data (jsToLower query).data) with
  | some e => e.2.any (fun variation => containsSubstr variation.data (jsToLower text).data)
  | none => false

/-- The semantic-variation table of `findSemanticMatches` (src/app.js:846-853). -/
def semanticVariationsKeyword : List (String × List String) :=
  [("policy", ["guideline", "rule", "procedure", "standard"]),
   ("security", ["protection", "safety", "confidentiality", "privacy"]),
   ("training", ["education", "learning", "development", "instruction"]),
   ("quality", ["excellence", "standards", "performance", "compliance"]),
   ("budget", ["financial", "cost", "expense", "allocation"]),
   ("implementation", ["execution", "deployment", "application", "enactment"])]

/-- Model of `[...new Set(list)]`: removes duplicates keeping the first
occurrence of each element. -/
def jsSetDedup : List String → List String
  | [] => []
  | x :: xs => x :: jsSetDedup (xs.filter (fun y => !(y == x)))
termination_by l => l.length
decreasing_by
  simp only [List.length_cons]
  exact Nat.lt_succ_of_le (List.length_filter_le _ _)

/-- Model of `findSemanticMatches(content, keywords)` (src/app.js:845-866). -/
def findSemanticMatches (content : String) (keywords : List String) : List String :=
  jsSetDedup (keywords.flatMap (fun keyword =>
    match semanticVariationsKeyword.find? (fun e => e.1 == keyword) with
    | some e => e.2.filter (fun variation =>
        containsSubstr variation.data (jsToLower content).data)
    | none => []))

/-- The factual-query pattern list of `isFactualQuery` (src/app.js:884-908):
a digit, or any of the case-insensitive literal patterns. -/
def isFactualQuery (query : String) : Bool :=
  containsDigit query || ciContains query "what is" || ciContains query "how many" ||
    ciContains query "when" || ciContains query "where" || ciContains query "who" ||
    ciContains query "how much" || ciContains query "cost" || ciContains query "price" ||
    ciContains query "amount" || ciContains query "percentage" || ciContains query "rate" ||
    ciContains query "frequency" || ciContains query "duration" || ciContains query "size" ||
    ciContains query "weight" || ciContains query "length" || ciContains query "area" ||
    ciContains query "volume"

/-- The sentence list used inside `generateRealSummary` (src/app.js:776,788). -/
def summarySentences (chunkContent : String) : List String :=
  (splitSentences chunkContent).filter (fun s => (jsTrim s).length > 10)

/-- The per-sentence keyword score of the general-summary branch
(src/app.js:795-801). -/
def sentenceKeywordScore (queryKeywords : List String) (sentence : String) : Nat :=
  (queryKeywords.filter (fun keyword =>
    containsSubstr keyword.data (jsToLower sentence).data)).length

/-- The `forEach` accumulation picking the best-scoring sentence
(src/app.js:792-807): starts from the first sentence with score `0`, replaces
only on a strictly larger score. -/
def bestSentenceByScore (sentences : List String) (queryKeywords : List String) :
    String × Nat :=
  sentences.foldl
    (fun best s =>
      if sentenceKeywordScore queryKeywords s > best.2 then (s, sentenceKeywordScore queryKeywords s)
      else best)
    (sentences.headD "", 0)

/-- The `reduce` picking the longest sentence (src/app.js:810-814), first
element as the initial accumulator, strict comparison so the earliest longest
wins. -/
def longestSentence (sentences : List String) : String :=
  match sentences with
  | [] => ""
  | s0 :: rest => rest.foldl (fun longest current =>
      if current.length > longest.length then current else longest) s0

/-- Model of `generateRealSummary(chunkContent, query, filename)`
(src/app.js:772-820); returns `none` for the JavaScript `return null`. -/
def generateRealSummary (chunkContent query filename : String) : Option String :=
  let factual : Option String :=
    if isFactualQuery query then
      match (summarySentences chunkContent).find?
          (fun sentence => containsSubstr (jsToLower query).data (jsToLower sentence).data
            || hasSemanticMatch sentence query) with
      | some relevantSentence => some ("Based on " ++ filename ++ ": " ++ jsTrim relevantSentence ++ ".")
      | none => none
    else none
  match factual with
  | some r => some r
  | none =>
    let sentences := summarySentences chunkContent
    if sentences.isEmpty then none
    else
      let queryKeywords := (jsSplitChar ' ' (jsToLower query)).filter (fun w => w.length > 2)
      let best := bestSentenceByScore sentences queryKeywords
      let bestSentence := if best.2 = 0 then longestSentence sentences else best.1
      some ("Summary from " ++ filename ++ ": " ++ jsTrim bestSentence ++ ".")

/-! ## Search results and merging -/

/-- A raw candidate as pushed by `keywordBasedSearch` (src/app.js:651-668) or
`vectorSimilaritySearch` (src/app.js:589-606).  The `id` keeps the
`result_<docIndex>_<chunkIndex>` stem (the `Date.now()` suffix is wall-clock
data); the `fullContent` HTML is presentation-only and omitted. -/
structure SearchResult where
  id : String
  content : String
  filename : String
  similarity_score : ℚ
  chunk_index : Nat
  pageNumber : Nat
  documentTitle : String
  confidence : ℚ
  summary : Option String
  contextBefore : List Chunk
  contextAfter : List Chunk
  queryTerms : List String
  semanticMatches : List String
  actualChunk : Chunk
  searchMethod : String
deriving DecidableEq

/-- A result returned by `mergeDocumentMatches`: either a single raw result
passed through unchanged (in which case the JavaScript object has no
`mergedMatches`/`additionalMatches` properties, modelled as `none`), or the
merged record of src/app.js:1040-1046. -/
structure MergedSearchResult where
  base : SearchResult
  mergedMatches : Option Nat
  additionalMatches : Option (List SearchResult)
deriving DecidableEq

/-- Stable insertion preserving descending `key` order: an element moves past
`b` only when `b` has a strictly smaller key, so equal keys keep their
original order — the behaviour of the (stable) `Array.prototype.sort` with
comparator `(a, b) => key(b) - key(a)`. -/
def insertDescBy {α : Type} (key : α → ℚ) (a : α) : List α → List α
  | [] => [a]
  | b :: rest => if key b ≤ key a then a :: b :: rest else b :: insertDescBy key a rest

/-- Model of `list.sort((a, b) => key(b) - key(a))`: stable sort by
descending key. -/
def sortDescBy {α : Type} (key : α → ℚ) (l : List α) : List α :=
  l.foldr (insertDescBy key) []

/-- Model of the grouping loop of `mergeDocumentMatches` (src/app.js:960-968):
a JavaScript object keyed by filename lists its keys in insertion order, i.e.
in order of each filename's first occurrence, each group keeping the
encounter order of its results. -/
def groupByFilename : List SearchResult → List (String × List SearchResult)
  | [] => []
  | r :: rest =>
    (r.filename, r :: rest.filter (fun s => s.filename == r.filename)) ::
      groupByFilename (rest.filter (fun s => !(s.filename == r.filename)))
termination_by l => l.length
decreasing_by
  simp only [List.length_cons]
  exact Nat.lt_succ_of_le (List.length_filter_le _ _)

/-- Model of `mergeResultsForDocument(filename, docResults)`
(src/app.js:1007-1047): sort the group by descending score, the first result
is primary, the rest become `additionalMatches`; the primary's `content` gets
the "Additional matches" suffix when any exist.  The `filename` parameter is
unused by the source as well.  Returns `none` on an empty group, which the
caller never produces. -/
def mergeResultsForDocument (_filename : String) (docResults : List SearchResult) :
    Option MergedSearchResult :=
  match sortDescBy (fun r => r.similarity_score) docResults with
  | [] => none
  | primaryResult :: additionalResults =>
    let mergedContent :=
      if additionalResults.length > 0 then
        primaryResult.content ++ "\n\nAdditional matches found in this document:"
      else primaryResult.content
    some { base := { primaryResult with content := mergedContent }
           mergedMatches := some docResults.length
           additionalMatches := some additionalResults }

/-- The per-group branch of `mergeDocumentMatches` (src/app.js:973-982): a
single-result group is pushed unchanged (its object keeps no
`mergedMatches`/`additionalMatches` properties), a larger group is merged. -/
def mergeGroupStep (fg : String × List SearchResult) : Option MergedSearchResult :=
  match fg.2 with
  | [r] => some { base := r, mergedMatches := none, additionalMatches := none }
  | docResults => mergeResultsForDocument fg.1 docResults

/-- Model of `mergeDocumentMatches(results)` (src/app.js:959-985). -/
def mergeDocumentMatches (results : List SearchResult) : List MergedSearchResult :=
  (groupByFilename results).filterMap mergeGroupStep

/-! ## Keyword search (`keywordBasedSearch`, src/app.js:620-684) -/

/-- The candidate record pushed at src/app.js:651-668. -/
def mkKeywordResult (doc : Document) (docIndex : Nat) (chunk : Chunk) (chunkIndex : Nat)
    (query : String) (keywords : List String) (relevance : ℚ) : SearchResult :=
  { id := "result_" ++ toString docIndex ++ "_" ++ toString chunkIndex
    content := chunk.content
    filename := doc.filename
    similarity_score := relevance
    chunk_index := chunk.chunkNumber
    pageNumber := chunk.pageNumber
    documentTitle := doc.filename
    confidence := relevance
    summary := generateRealSummary chunk.content query doc.filename
    contextBefore := getContextChunks doc.chunks chunkIndex "before"
    contextAfter := getContextChunks doc.chunks chunkIndex "after"
    queryTerms := keywords
    semanticMatches := findSemanticMatches chunk.content keywords
    actualChunk := chunk
    searchMethod := "keyword" }

/-- The raw candidates collected by the document/chunk double loop of
`keywordBasedSearch` (src/app.js:627-674): one result per chunk whose
relevance strictly exceeds `0.3`. -/
def keywordRawResults (documents : List Document) (query : String) : List SearchResult :=
  let keywords := jsSplitChar ' ' (jsToLower query)
  documents.enum.flatMap (fun dp =>
    dp.2.chunks.enum.filterMap (fun cp =>
      let relevance := calculateRelevance cp.2.content query keywords
      if relevance > 3/10 then
        some (mkKeywordResult dp.2 dp.1 cp.2 cp.1 query keywords relevance)
      else none))

/-- Model of `keywordBasedSearch(query)` (src/app.js:620-684): collect raw
candidates, sort by descending score, merge per document. -/
def keywordBasedSearch (documents : List Document) (query : String) :
    List MergedSearchResult :=
  mergeDocumentMatches
    (sortDescBy (fun r => r.similarity_score) (keywordRawResults documents query))

/-! ## Vector search (`vectorSimilaritySearch`, src/app.js:558-618) -/

/-- Modelled from the spec: the FAISS vector index is an external collaborator
(not part of this repository); the specification gives its contract as
`vectorSearch(queryVector, k) -> ranked (chunkId, score) pairs` with the score
normalised to `[0,1]`.  Only the search operation is needed here; it is kept
abstract. -/
structure VectorDB where
  search : List ℚ → Nat → List (String × ℚ)

/-- The enriched chunk returned by `findChunkById` (src/app.js:988-1004):
the chunk spread together with its document and both indices. -/
structure FoundChunk where
  chunk : Chunk
  document : Document
  documentIndex : Nat
  chunkIndex : Nat
deriving DecidableEq

/-- Model of `findChunkById(chunkId)` (src/app.js:988-1004): first chunk with
the given id, scanning documents then chunks in order. -/
def findChunkById (documents : List Document) (chunkId : String) : Option FoundChunk :=
  documents.enum.findSome? (fun dp =>
    (dp.2.chunks.enum.find? (fun cp => cp.2.id == chunkId)).map (fun cp =>
      { chunk := cp.2, document := dp.2, documentIndex := dp.1, chunkIndex := cp.1 }))

/-- The candidate record pushed at src/app.js:589-606: score taken directly
from the vector-search result, no threshold applied. -/
def mkVectorResult (fc : FoundChunk) (query : String) (relevance : ℚ) : SearchResult :=
  { id := "result_" ++ toString fc.documentIndex ++ "_" ++ toString fc.chunkIndex
    content := fc.chunk.content
    filename := fc.document.filename
    similarity_score := relevance
    chunk_index := fc.chunk.chunkNumber
    pageNumber := fc.chunk.pageNumber
    documentTitle := fc.document.filename
    confidence := relevance
    summary := generateRealSummary fc.chunk.content query fc.document.filename
    contextBefore := getContextChunks fc.document.chunks fc.chunkIndex "before"
    contextAfter := getContextChunks fc.document.chunks fc.chunkIndex "after"
    queryTerms := jsSplitChar ' ' (jsToLower query)
    semanticMatches := findSemanticMatches fc.chunk.content (jsSplitChar ' ' (jsToLower query))
    actualChunk := fc.chunk
    searchMethod := "vector" }

/-- The raw candidates of the vector path (src/app.js:572-608): every vector
hit whose chunk id resolves becomes a candidate carrying the hit's score. -/
def vectorRawResults (documents : List Document) (db : VectorDB)
    (queryEmbedding : List ℚ) (query : String) : List SearchResult :=
  (db.search queryEmbedding 10).filterMap (fun res =>
    (findChunkById documents res.1).map (fun fc => mkVectorResult fc query res.2))

/-- Model of `vectorSimilaritySearch(query)` after a successful query
embedding (src/app.js:558-618): collect, sort by descending score, merge. -/
def vectorSimilaritySearch (documents : List Document) (db : VectorDB)
    (queryEmbedding : List ℚ) (query : String) : List MergedSearchResult :=
  mergeDocumentMatches
    (sortDescBy (fun r => r.similarity_score) (vectorRawResults documents db queryEmbedding query))

/-! ## The service and `simulateSearch` (src/app.js:535-556) -/

/-- The RAG candidate record pushed at src/app.js:1057-1064.  The object
literal sets `documentSection` at top level and has no `metadata` property;
reading `metadata` on it yields the JavaScript `undefined`, modelled by the
`metadata` field being `none`. -/
structure RagSource where
  content : String
  filename : String
  pageNumber : Nat
  chunkNumber : Nat
  similarity_score : ℚ
  documentSection : String
  metadata : Option ChunkMetadata := none
deriving DecidableEq

/-- Mutable service state relevant to retrieval: `this.documents`,
`this.embeddings` (none when the Hugging Face pipeline failed to load, some
function otherwise, whose individual calls may still fail), `this.vectorDB`
(the external FAISS index, none when unavailable) and `this.llm`/the text
generator (an external answer writer, abstracted as a function). -/
structure ServiceState where
  documents : List Document
  embeddings : Option (String → Option (List ℚ)) := none
  vectorDB : Option VectorDB := none
  llm : Option (String → List RagSource → String) := none

/-- Model of `simulateSearch(query)` (src/app.js:535-556).  The second
component counts the calls made to the external embedding provider during the
search, so that degradation claims can speak about "never calls the
provider".  The vector path is taken only when both `this.embeddings` and
`this.vectorDB` are set; a failing query embedding makes the `try` block
throw, landing in the keyword fallback. -/
def simulateSearch (st : ServiceState) (query : String) :
    List MergedSearchResult × Nat :=
  if st.documents.isEmpty then ([], 0)
  else
    match st.embeddings, st.vectorDB with
    | some embedFn, some db =>
      match embedFn query with
      | some queryEmbedding => (vectorSimilaritySearch st.documents db queryEmbedding query, 1)
      | none => (keywordBasedSearch st.documents query, 1)
    | _, _ => (keywordBasedSearch st.documents query, 0)

/-! ## RAG (`simulateRAG`, src/app.js:1049-1105) -/

/-- One source entry of the returned RAG answer (src/app.js:1096-1103). -/
structure RAGSourceOut where
  content : String
  filename : String
  pageNumber : Nat
  chunkNumber : Nat
  similarity_score : ℚ
  documentSection : String
deriving DecidableEq

/-- The RAG answer shape `{answer, sources}`. -/
structure RAGAnswer where
  answer : String
  sources : List RAGSourceOut
deriving DecidableEq

/-- The fixed no-candidates answer (src/app.js:1074). -/
def noMatchAnswer (query : String) : String :=
  "No matching information found in the provided documents for \"" ++ query ++ "\"."

/-- The relevant-chunk collection loop of `simulateRAG` (src/app.js:1053-1067).
Note the keywords handed to `calculateRelevance` are the words of the chunk
itself (`chunk.content.toLowerCase().split(" ")`), exactly as in the source;
only chunks with relevance strictly above `0.4` are kept. -/
def ragRelevantChunks (documents : List Document) (query : String) : List RagSource :=
  documents.flatMap (fun doc =>
    doc.chunks.filterMap (fun chunk =>
      let relevance := calculateRelevance chunk.content query
        (jsSplitChar ' ' (jsToLower chunk.content))
      if relevance > 2/5 then
        some { content := chunk.content
               filename := doc.filename
               pageNumber := chunk.pageNumber
               chunkNumber := chunk.chunkNumber
               similarity_score := relevance
               documentSection := chunk.metadata.documentSection }
      else none))

/-- Model of the summary-request test (src/app.js:1114-1117). -/
def isSummaryRequest (query : String) : Bool :=
  ciContains query "summary" || ciContains query "summarize" ||
    ciContains query "overview" || ciContains query "main points"

/-- Model of `generateRAGAnswer(query, chunks)` (src/app.js:1108-1163), the
template fallback answer writer. -/
def generateRAGAnswer (query : String) (chunks : List RagSource) : String :=
  if chunks.isEmpty then noMatchAnswer query
  else if isSummaryRequest query then
    (chunks.foldl
      (fun summary chunk =>
        let sentences := summarySentences chunk.content
        if sentences.isEmpty then summary
        else summary ++ "\x2022 " ++ jsTrim (longestSentence sentences) ++ "\n")
      "Here\x27s a comprehensive summary of the key information from your documents:\n\n")
    ++ "\nThis summary is based on " ++ toString chunks.length
    ++ " relevant sections from your uploaded documents."
  else
    (chunks.foldl
      (fun answer chunk =>
        let sentences := summarySentences chunk.content
        let relevantSentence := sentences.find? (fun sentence =>
          containsSubstr (jsToLower query).data (jsToLower sentence).data
            || hasSemanticMatch sentence query)
        let info := match relevantSentence with
          | some s => s
          | none => chunk.content
        answer ++ "From " ++ chunk.filename ++ " (Page " ++ toString chunk.pageNumber
          ++ "): " ++ jsTrim info ++ ".\n\n")
      ("Based on the provided documents, here\x27s what I found regarding \"" ++ query ++ "\":\n\n"))
    ++ "This information is extracted directly from the uploaded documents and represents the actual content found in your PDF files."

/-- JavaScript property read `chunk.metadata.documentSection`: reading a
property of `undefined` throws a `TypeError`. -/
def readMetadataDocumentSection (metadata : Option ChunkMetadata) : Except String String :=
  match metadata with
  | some md => Except.ok md.documentSection
  | none => Except.error "TypeError: cannot read documentSection of undefined"

/-- The sources list construction of src/app.js:1096-1103; the map throws at
the first entry because the collected RAG candidates carry no `metadata`
property. -/
def ragSources (relevantChunks : List RagSource) : Except String (List RAGSourceOut) :=
  relevantChunks.mapM (fun chunk =>
    (readMetadataDocumentSection chunk.metadata).map (fun ds =>
      { content := chunk.content
        filename := chunk.filename
        pageNumber := chunk.pageNumber
        chunkNumber := chunk.chunkNumber
        similarity_score := chunk.similarity_score
        documentSection := ds }))

/-- Model of `simulateRAG(query)` (src/app.js:1049-1105): collect candidates
above `0.4`, sort descending; with no candidates return the fixed
no-information answer with empty sources; otherwise write the answer from the
top 3 chunks (delegated to the external model when loaded, else the template
writer) and build the sources list — whose construction may throw. -/
def simulateRAG (st : ServiceState) (query : String) : Except String RAGAnswer :=
  let relevantChunks :=
    sortDescBy (fun c => c.similarity_score) (ragRelevantChunks st.documents query)
  if relevantChunks.isEmpty then
    Except.ok { answer := noMatchAnswer query, sources := [] }
  else
    let topChunks := relevantChunks.take 3
    let answer := match st.llm with
      | some generate => generate query topChunks
      | none => generateRAGAnswer query topChunks
    (ragSources relevantChunks).map (fun sources => { answer := answer, sources := sources })

/-! ## Auxiliary list lemmas -/

lemma snd_mem_of_mem_enumFrom {α : Type} {l : List α} :
    ∀ {n : Nat} {p : Nat × α}, p ∈ l.enumFrom n → p.2 ∈ l := by
  induction l with
  | nil => intro n p h; simp [List.enumFrom] at h
  | cons x xs ih =>
    intro n p h
    simp only [List.enumFrom, List.mem_cons] at h
    rcases h with rfl | h
    · exact List.mem_cons_self _ _
    · exact List.mem_cons_of_mem _ (ih h)

lemma snd_mem_of_mem_enum {α : Type} {l : List α} {p : Nat × α} (h : p ∈ l.enum) :
    p.2 ∈ l := snd_mem_of_mem_enumFrom h

/-! ## C1: the keyword relevance formula -/

/-- C1: for every chunk text, query string, and whitespace-split keyword list,
the keyword relevance score equals the weighted sum of 0.3 times the
case-insensitive occurrence count of each keyword of length > 2 in the chunk
text, plus 0.5 if the full query string appears verbatim (case-insensitively)
in the chunk text, plus 0.1 if the chunk text is longer than 100 characters,
with the final score capped at 1.0. -/
theorem keyword_relevance_matches_spec (chunkText query : String) (keywords : List String) :
    calculateRelevance chunkText query keywords = keywordScoreSpec chunkText query keywords :=
  calculateRelevance_closed chunkText query keywords

/-! ## C4: chunker invariants -/

/-- The invariant carried through the `createTextChunks` folds: the id counter
equals the number of chunks produced, chunk numbers are the 1-based positions,
and every chunk stems from a retained (trimmed length > 10) sentence of one of
the pages. -/
def chunkInv (pageTexts : List PageData) (st : Nat × List Chunk) : Prop :=
  st.1 = st.2.length ∧
  (∀ i (h : i < st.2.length), (st.2.get ⟨i, h⟩).chunkNumber = i + 1) ∧
  (∀ c ∈ st.2, c.content ≠ "" ∧ ∃ pd ∈ pageTexts, ∃ s ∈ splitSentences pd.text,
    (jsTrim s).length > 10 ∧ c.content = cleanSentence s)

lemma cleanSentence_ne_empty {s : String} (h : (jsTrim s).length > 10) :
    cleanSentence s ≠ "" := by
  have ht : (jsTrim s).length > 0 := by omega
  unfold cleanSentence
  intro hc
  simp only at hc
  split at hc
  · have h2 := congrArg String.length hc
    rw [String.length_append] at h2
    have hdot : (("." : String)).length = 1 := rfl
    have hnil : (("" : String)).length = 0 := rfl
    rw [hdot, hnil] at h2
    omega
  · rw [hc] at ht
    have hnil : (("" : String)).length = 0 := rfl
    rw [hnil] at ht
    omega

lemma chunkStep_inv {pageTexts : List PageData} {pd : PageData} (hpd : pd ∈ pageTexts)
    (emb : Option (String → Option (List ℚ))) (pageIndex : Nat)
    {st : Nat × List Chunk} (hst : chunkInv pageTexts st) {sip : Nat × String}
    (hs : sip.2 ∈ splitSentences pd.text) (hlen : (jsTrim sip.2).length > 10) :
    chunkInv pageTexts (chunkStep emb pageIndex pd st sip) := by
  obtain ⟨hcount, hnum, horig⟩ := hst
  unfold chunkStep
  by_cases h : (cleanSentence sip.2).length > 5
  · simp only [h, if_true]
    refine ⟨by simp [hcount], ?_, ?_⟩
    · intro i hi
      simp only [List.length_append, List.length_cons, List.length_nil] at hi
      rcases Nat.lt_or_ge i st.2.length with hlt | hge
      · rw [List.get_append _ hlt]
        exact hnum i hlt
      · have hieq : i = st.2.length := by omega
        subst hieq
        have : (st.2 ++ [mkChunk emb pageIndex pd sip.1 st.1 (cleanSentence sip.2)]).get
            ⟨st.2.length, by simp⟩ = mkChunk emb pageIndex pd sip.1 st.1 (cleanSentence sip.2) := by
          simp
        rw [this]
        simp [mkChunk, hcount]
    · intro c hc
      rcases List.mem_append.mp hc with hmem | hmem
      · exact horig c hmem
      · have : c = mkChunk emb pageIndex pd sip.1 st.1 (cleanSentence sip.2) := by
          simpa using hmem
        subst this
        exact ⟨cleanSentence_ne_empty hlen, pd, hpd, sip.2, hs, hlen, rfl⟩
  · simpa [h] using ⟨hcount, hnum, horig⟩

lemma foldl_chunkStep_inv (emb : Option (String → Option (List ℚ)))
    {pageTexts : List PageData} {pd : PageData} (hpd : pd ∈ pageTexts) (pageIndex : Nat)
    (l : List (Nat × String))
    (hl : ∀ sip ∈ l, sip.2 ∈ splitSentences pd.text ∧ (jsTrim sip.2).length > 10) :
    ∀ st, chunkInv pageTexts st →
      chunkInv pageTexts (l.foldl (chunkStep emb pageIndex pd) st) := by
  induction l with
  | nil => intro st hst; simpa using hst
  | cons sip rest ih =>
    intro st hst
    simp only [List.foldl_cons]
    exact ih (fun x hx => hl x (List.mem_cons_of_mem _ hx)) _
      (chunkStep_inv hpd emb pageIndex hst (hl sip (List.mem_cons_self _ _)).1
        (hl sip (List.mem_cons_self _ _)).2)

lemma outer_chunk_fold_inv (emb : Option (String → Option (List ℚ)))
    (pageTexts : List PageData) (l : List (Nat × PageData))
    (hl : ∀ pip ∈ l, pip.2 ∈ pageTexts) :
    ∀ st, chunkInv pageTexts st →
      chunkInv pageTexts (l.foldl
        (fun st pip =>
          (pageFilteredSentences pip.2.text).enum.foldl (chunkStep emb pip.1 pip.2) st) st) := by
  induction l with
  | nil => intro st hst; simpa using hst
  | cons pip rest ih =>
    intro st hst
    simp only [List.foldl_cons]
    refine ih (fun x hx => hl x (List.mem_cons_of_mem _ hx)) _ ?_
    refine foldl_chunkStep_inv emb (hl pip (List.mem_cons_self _ _)) pip.1 _ ?_ st hst
    intro sip hsip
    have h2 := snd_mem_of_mem_enum hsip
    unfold pageFilteredSentences at h2
    have := List.mem_filter.mp h2
    exact ⟨this.1, by simpa using this.2⟩

/-- C4: for every extracted text, the chunker produces chunks whose sequence
numbers are exactly 1, 2, 3, ... (hence strictly increasing starting at 1)
and whose content is non-empty; moreover every chunk stems from a
sentence-like segment (split on terminal punctuation) whose trimmed length
exceeds 10, so segments shorter than 10 characters after trimming are
discarded and yield no chunk. -/
theorem createTextChunks_spec (emb : Option (String → Option (List ℚ)))
    (pageTexts : List PageData) :
    (∀ i (h : i < (createTextChunks emb pageTexts).length),
      ((createTextChunks emb pageTexts).get ⟨i, h⟩).chunkNumber = i + 1) ∧
    (∀ c ∈ createTextChunks emb pageTexts, c.content ≠ "") ∧
    (∀ c ∈ createTextChunks emb pageTexts, ∃ pd ∈ pageTexts,
      ∃ s ∈ splitSentences pd.text, (jsTrim s).length > 10 ∧ c.content = cleanSentence s) := by
  have hinv : chunkInv pageTexts
      ((pageTexts.enum.foldl
        (fun st pip =>
          (pageFilteredSentences pip.2.text).enum.foldl (chunkStep emb pip.1 pip.2) st)
        ((0, []) : Nat × List Chunk))) := by
    refine outer_chunk_fold_inv emb pageTexts pageTexts.enum
      (fun pip hpip => snd_mem_of_mem_enum hpip) _ ?_
    refine ⟨rfl, ?_, ?_⟩
    · intro i hi; simp at hi
    · intro c hc; simp at hc
  obtain ⟨_, hnum, horig⟩ := hinv
  exact ⟨hnum, fun c hc => (horig c hc).1, fun c hc => (horig c hc).2⟩

/-! ## Lemmas about the stable descending sort -/

section SortLemmas

variable {α : Type} (key : α → ℚ)

lemma length_insertDescBy (a : α) (l : List α) :
    (insertDescBy key a l).length = l.length + 1 := by
  induction l with
  | nil => rfl
  | cons b rest ih =>
    by_cases h : key b ≤ key a <;> simp [insertDescBy, h, ih]

lemma length_sortDescBy (l : List α) : (sortDescBy key l).length = l.length := by
  induction l with
  | nil => rfl
  | cons a rest ih =>
    simp only [sortDescBy, List.foldr_cons] at *
    rw [length_insertDescBy, ih]
    rfl

lemma mem_insertDescBy {x a : α} {l : List α} :
    x ∈ insertDescBy key a l ↔ x = a ∨ x ∈ l := by
  induction l with
  | nil => simp [insertDescBy]
  | cons b rest ih =>
    by_cases h : key b ≤ key a <;> simp [insertDescBy, h, ih] <;> tauto

lemma mem_sortDescBy {x : α} {l : List α} : x ∈ sortDescBy key l ↔ x ∈ l := by
  induction l with
  | nil => simp [sortDescBy]
  | cons a rest ih =>
    simp only [sortDescBy, List.foldr_cons] at *
    rw [mem_insertDescBy, ih, List.mem_cons]

lemma sortDescBy_eq_self {l : List α} (h : l.Pairwise (fun a b => key b ≤ key a)) :
    sortDescBy key l = l := by
  induction l with
  | nil => rfl
  | cons a rest ih =>
    obtain ⟨ha, hrest⟩ := List.pairwise_cons.mp h
    simp only [sortDescBy, List.foldr_cons] at *
    rw [ih hrest]
    cases rest with
    | nil => rfl
    | cons b rest2 =>
      simp [insertDescBy, ha b (List.mem_cons_self _ _)]

end SortLemmas

/-! ## Lemmas about the grouping of `mergeDocumentMatches` -/

lemma groupByFilename_key_mem (l : List SearchResult) :
    ∀ fg ∈ groupByFilename l, ∃ x ∈ l, x.filename = fg.1 := by
  induction l using groupByFilename.induct with
  | case1 => intro fg h; simp [groupByFilename] at h
  | case2 r rest ih =>
    intro fg h
    simp only [groupByFilename, List.mem_cons] at h
    rcases h with rfl | h
    · exact ⟨r, List.mem_cons_self _ _, rfl⟩
    · obtain ⟨x, hx, hfx⟩ := ih fg h
      exact ⟨x, List.mem_cons_of_mem _ (List.mem_filter.mp hx).1, hfx⟩

lemma groupByFilename_group_eq (l : List SearchResult) :
    ∀ fg ∈ groupByFilename l, fg.2 = l.filter (fun s => s.filename == fg.1) := by
  induction l using groupByFilename.induct with
  | case1 => intro fg h; simp [groupByFilename] at h
  | case2 r rest ih =>
    intro fg h
    simp only [groupByFilename, List.mem_cons] at h
    rcases h with rfl | h
    · simp [List.filter_cons]
    · have hne : fg.1 ≠ r.filename := by
        obtain ⟨x, hx, hfx⟩ := groupByFilename_key_mem _ fg h
        have hx2 := (List.mem_filter.mp hx).2
        simp only [Bool.not_eq_eq_eq_not, Bool.not_true, beq_eq_false_iff_ne, ne_eq] at hx2
        rw [← hfx]; exact hx2
      rw [ih fg h, List.filter_cons]
      have hrne : (r.filename == fg.1) = false := by
        simp [beq_eq_false_iff_ne]; exact fun hr => hne hr.symm
      simp only [hrne, Bool.false_eq_true, if_false, List.filter_filter]
      apply List.filter_congr
      intro a _
      by_cases hafg : a.filename = fg.1
      · have h3 : (a.filename == r.filename) = false := by
          rw [beq_eq_false_iff_ne, hafg]
          exact hne
        simp only [hafg, h3]
        simp
        exact hne
      · simp [hafg]

lemma groupByFilename_group_ne_nil (l : List SearchResult) :
    ∀ fg ∈ groupByFilename l, fg.2 ≠ [] := by
  induction l using groupByFilename.induct with
  | case1 => intro fg h; simp [groupByFilename] at h
  | case2 r rest ih =>
    intro fg h
    simp only [groupByFilename, List.mem_cons] at h
    rcases h with rfl | h
    · simp
    · exact ih fg h

lemma groupByFilename_group_sub (l : List SearchResult) :
    ∀ fg ∈ groupByFilename l, ∀ x ∈ fg.2, x ∈ l := by
  intro fg hfg x hx
  rw [groupByFilename_group_eq l fg hfg] at hx
  exact (List.mem_filter.mp hx).1

lemma groupByFilename_keys_nodup (l : List SearchResult) :
    ((groupByFilename l).map Prod.fst).Nodup := by
  induction l using groupByFilename.induct with
  | case1 => simp [groupByFilename]
  | case2 r rest ih =>
    simp only [groupByFilename, List.map_cons]
    refine List.nodup_cons.mpr ⟨?_, ih⟩
    intro hmem
    obtain ⟨fg, hfg, hkey⟩ := List.mem_map.mp hmem
    obtain ⟨x, hx, hfx⟩ := groupByFilename_key_mem _ fg hfg
    have hx2 := (List.mem_filter.mp hx).2
    simp only [Bool.not_eq_eq_eq_not, Bool.not_true, beq_eq_false_iff_ne, ne_eq] at hx2
    exact hx2 (hfx.trans hkey)

lemma mem_groupByFilename_keys (l : List SearchResult) (f : String) :
    f ∈ (groupByFilename l).map Prod.fst ↔ f ∈ l.map (fun r => r.filename) := by
  induction l using groupByFilename.induct with
  | case1 => simp [groupByFilename]
  | case2 r rest ih =>
    simp only [groupByFilename, List.map_cons, List.mem_cons]
    constructor
    · rintro (rfl | h)
      · exact Or.inl rfl
      · have := ih.mp h
        obtain ⟨x, hx, hfx⟩ := List.mem_map.mp this
        exact Or.inr (List.mem_map.mpr ⟨x, (List.mem_filter.mp hx).1, hfx⟩)
    · rintro (rfl | h)
      · exact Or.inl rfl
      · by_cases hf : f = r.filename
        · exact Or.inl hf
        · refine Or.inr (ih.mpr ?_)
          obtain ⟨x, hx, hfx⟩ := List.mem_map.mp h
          refine List.mem_map.mpr ⟨x, List.mem_filter.mpr ⟨hx, ?_⟩, hfx⟩
          simp only [Bool.not_eq_eq_eq_not, Bool.not_true, beq_eq_false_iff_ne, ne_eq]
          exact fun hr => hf (hfx ▸ hr ▸ rfl)

lemma groupByFilename_group_sorted (l : List SearchResult)
    (h : l.Pairwise (fun a b => b.similarity_score ≤ a.similarity_score)) :
    ∀ fg ∈ groupByFilename l,
      fg.2.Pairwise (fun a b => b.similarity_score ≤ a.similarity_score) := by
  intro fg hfg
  rw [groupByFilename_group_eq l fg hfg]
  exact h.sublist (List.filter_sublist _)

lemma groupByFilename_heads_pairwise (l : List SearchResult)
    (h : l.Pairwise (fun a b => b.similarity_score ≤ a.similarity_score)) :
    (groupByFilename l).Pairwise (fun fg1 fg2 =>
      ∀ a, fg1.2.head? = some a → ∀ b, fg2.2.head? = some b →
        b.similarity_score ≤ a.similarity_score) := by
  induction l using groupByFilename.induct with
  | case1 => simp [groupByFilename]
  | case2 r rest ih =>
    obtain ⟨hr, hrest⟩ := List.pairwise_cons.mp h
    simp only [groupByFilename]
    refine List.Pairwise.cons ?_ (ih (hrest.sublist (List.filter_sublist _)))
    intro fg2 hfg2 a ha b hb
    have ha2 : r = a := by
      simp only [List.head?_cons, Option.some_inj] at ha
      exact ha
    have hbmem : b ∈ fg2.2 := by
      cases h2 : fg2.2 with
      | nil => rw [h2] at hb; simp at hb
      | cons y ys =>
        rw [h2] at hb
        simp only [List.head?_cons, Option.some_inj] at hb
        subst hb
        exact List.mem_cons_self _ _
    have hsub := groupByFilename_group_sub _ fg2 hfg2 b hbmem
    rw [← ha2]
    exact hr b (List.mem_filter.mp hsub).1

lemma pairwise_filterMap_of {α β : Type} (f : α → Option β) {R : β → β → Prop}
    {S : α → α → Prop} :
    ∀ {l : List α},
      (∀ a ∈ l, ∀ b ∈ l, ∀ x y, S a b → f a = some x → f b = some y → R x y) →
      l.Pairwise S → (l.filterMap f).Pairwise R := by
  intro l
  induction l with
  | nil => intro _ _; simp
  | cons a rest ih =>
    intro hall hpw
    obtain ⟨ha, hrest⟩ := List.pairwise_cons.mp hpw
    rw [List.filterMap_cons]
    cases hfa : f a with
    | none =>
      exact ih (fun x hx y hy => hall x (List.mem_cons_of_mem _ hx) y (List.mem_cons_of_mem _ hy))
        hrest
    | some x =>
      refine List.Pairwise.cons ?_ ?_
      · intro y hy
        obtain ⟨b, hb, hfb⟩ := List.mem_filterMap.mp hy
        exact hall a (List.mem_cons_self _ _) b (List.mem_cons_of_mem _ hb) x y (ha b hb) hfa hfb
      · exact ih
          (fun x hx y hy => hall x (List.mem_cons_of_mem _ hx) y (List.mem_cons_of_mem _ hy))
          hrest

lemma map_filterMap_congr {α β γ : Type} (f : α → Option β) (g : β → γ) (h : α → γ) :
    ∀ (l : List α), (∀ a ∈ l, ∃ b, f a = some b ∧ g b = h a) →
      (l.filterMap f).map g = l.map h := by
  intro l
  induction l with
  | nil => intro _; simp
  | cons a rest ih =>
    intro hall
    obtain ⟨b, hb, hgb⟩ := hall a (List.mem_cons_self _ _)
    simp only [List.filterMap_cons, hb, List.map_cons, hgb]
    rw [ih (fun x hx => hall x (List.mem_cons_of_mem _ hx))]

lemma mem_of_head? {α : Type} {l : List α} {a : α} (h : l.head? = some a) : a ∈ l := by
  cases l with
  | nil => simp at h
  | cons x xs =>
    simp only [List.head?_cons, Option.some_inj] at h
    subst h
    exact List.mem_cons_self _ _

lemma mergeGroupStep_isSome {fg : String × List SearchResult}
    (hs : fg.2.Pairwise (fun a b => b.similarity_score ≤ a.similarity_score))
    (hne : fg.2 ≠ []) : ∃ m, mergeGroupStep fg = some m := by
  obtain ⟨f, g⟩ := fg
  match g with
  | [] => exact absurd rfl hne
  | [r] => exact ⟨_, rfl⟩
  | a :: b :: t =>
    have h2 : mergeGroupStep (f, a :: b :: t) = mergeResultsForDocument f (a :: b :: t) := rfl
    rw [h2]
    unfold mergeResultsForDocument
    rw [sortDescBy_eq_self _ hs]
    exact ⟨_, rfl⟩

lemma mergeGroupStep_base {fg : String × List SearchResult}
    (hs : fg.2.Pairwise (fun a b => b.similarity_score ≤ a.similarity_score))
    {m : MergedSearchResult} (hm : mergeGroupStep fg = some m) :
    ∃ p, fg.2.head? = some p ∧ m.base.similarity_score = p.similarity_score ∧
      m.base.filename = p.filename ∧ m.base.searchMethod = p.searchMethod ∧
      m.base.summary = p.summary ∧ m.base.confidence = p.confidence := by
  obtain ⟨f, g⟩ := fg
  match g with
  | [] =>
    exfalso
    have : mergeGroupStep (f, ([] : List SearchResult)) = none := by
      show mergeResultsForDocument f [] = none
      rfl
    rw [this] at hm
    exact Option.noConfusion hm
  | [r] =>
    have : m = { base := r, mergedMatches := none, additionalMatches := none } := by
      have h2 : mergeGroupStep (f, [r]) =
          some { base := r, mergedMatches := none, additionalMatches := none } := rfl
      rw [h2] at hm
      exact (Option.some_inj.mp hm).symm
    subst this
    exact ⟨r, rfl, rfl, rfl, rfl, rfl, rfl⟩
  | a :: b :: t =>
    have h2 : mergeGroupStep (f, a :: b :: t) = mergeResultsForDocument f (a :: b :: t) := rfl
    rw [h2] at hm
    unfold mergeResultsForDocument at hm
    rw [sortDescBy_eq_self _ hs] at hm
    simp only [Option.some_inj] at hm
    subst hm
    exact ⟨a, rfl, rfl, rfl, rfl, rfl, rfl⟩

lemma mergeGroupStep_additional {fg : String × List SearchResult}
    (hs : fg.2.Pairwise (fun a b => b.similarity_score ≤ a.similarity_score))
    {m : MergedSearchResult} (hm : mergeGroupStep fg = some m) :
    (fg.2.length = 1 → m.additionalMatches = none ∧ m.mergedMatches = none) ∧
    (2 ≤ fg.2.length → ∃ l, m.additionalMatches = some l ∧ l.length = fg.2.length - 1 ∧
        m.mergedMatches = some fg.2.length) ∧
    (∀ l, m.additionalMatches = some l → ∀ x ∈ l, x ∈ fg.2) := by
  obtain ⟨f, g⟩ := fg
  match g with
  | [] =>
    exfalso
    have : mergeGroupStep (f, ([] : List SearchResult)) = none := by
      show mergeResultsForDocument f [] = none
      rfl
    rw [this] at hm
    exact Option.noConfusion hm
  | [r] =>
    have : m = { base := r, mergedMatches := none, additionalMatches := none } := by
      have h2 : mergeGroupStep (f, [r]) =
          some { base := r, mergedMatches := none, additionalMatches := none } := rfl
      rw [h2] at hm
      exact (Option.some_inj.mp hm).symm
    subst this
    refine ⟨fun _ => ⟨rfl, rfl⟩, by intro h2; simp at h2, ?_⟩
    intro l hl
    exact absurd hl (by simp)
  | a :: b :: t =>
    have h2 : mergeGroupStep (f, a :: b :: t) = mergeResultsForDocument f (a :: b :: t) := rfl
    rw [h2] at hm
    unfold mergeResultsForDocument at hm
    rw [sortDescBy_eq_self _ hs] at hm
    simp only [Option.some_inj] at hm
    subst hm
    refine ⟨by intro h3; simp at h3, ?_, ?_⟩
    · intro _
      exact ⟨b :: t, rfl, by simp, rfl⟩
    · intro l hl x hx
      simp only [Option.some_inj] at hl
      subst hl
      exact List.mem_cons_of_mem _ hx

/-- Shared structure lemma: every merged result's primary carries the fields
of some raw candidate, and its additional matches are raw candidates. -/
lemma mem_mergeDocumentMatches {rs : List SearchResult}
    (hsorted : rs.Pairwise (fun a b => b.similarity_score ≤ a.similarity_score))
    {m : MergedSearchResult} (hm : m ∈ mergeDocumentMatches rs) :
    (∃ p ∈ rs, m.base.similarity_score = p.similarity_score ∧
      m.base.filename = p.filename ∧ m.base.searchMethod = p.searchMethod ∧
      m.base.summary = p.summary ∧ m.base.confidence = p.confidence) ∧
    (∀ l, m.additionalMatches = some l → ∀ x ∈ l, x ∈ rs) := by
  obtain ⟨fg, hfg, hstep⟩ := List.mem_filterMap.mp hm
  have hgsorted := groupByFilename_group_sorted rs hsorted fg hfg
  obtain ⟨p, hp, hrel⟩ := mergeGroupStep_base hgsorted hstep
  constructor
  · exact ⟨p, groupByFilename_group_sub rs fg hfg p (mem_of_head? hp), hrel⟩
  · intro l hl x hx
    exact groupByFilename_group_sub rs fg hfg x
      ((mergeGroupStep_additional hgsorted hstep).2.2 l hl x hx)

/-- C3: on a score-sorted candidate list (both call sites sort before merging,
src/app.js:611-612 and 679-680), `mergeDocumentMatches` yields exactly one
result per distinct source document (its primary filenames are duplicate-free
and cover exactly the filenames of the candidates), the output is ordered by
each document's best-scoring candidate (primary scores descend), a document
contributing n > 1 candidates gets `additionalMatches` of length n - 1 (the
best-scoring candidate being primary), and a document contributing exactly
one candidate yields a result without additional entries (the source then
attaches no `additionalMatches` property at all, modelled as `none`). -/
theorem mergeDocumentMatches_contract (rs : List SearchResult)
    (hsorted : rs.Pairwise (fun a b => b.similarity_score ≤ a.similarity_score)) :
    ((mergeDocumentMatches rs).map (fun m => m.base.filename)).Nodup ∧
    (∀ f : String, f ∈ (mergeDocumentMatches rs).map (fun m => m.base.filename) ↔
        f ∈ rs.map (fun r => r.filename)) ∧
    (mergeDocumentMatches rs).Pairwise
        (fun m1 m2 => m2.base.similarity_score ≤ m1.base.similarity_score) ∧
    (∀ m ∈ mergeDocumentMatches rs,
      ((rs.filter (fun r => r.filename == m.base.filename)).length = 1 →
          m.additionalMatches = none) ∧
      (2 ≤ (rs.filter (fun r => r.filename == m.base.filename)).length →
          ∃ l, m.additionalMatches = some l ∧
            l.length = (rs.filter (fun r => r.filename == m.base.filename)).length - 1)) := by
  have hnames : (mergeDocumentMatches rs).map (fun m => m.base.filename)
      = (groupByFilename rs).map Prod.fst := by
    apply map_filterMap_congr
    intro fg hfg
    have hgsorted := groupByFilename_group_sorted rs hsorted fg hfg
    obtain ⟨m, hm⟩ := mergeGroupStep_isSome hgsorted (groupByFilename_group_ne_nil rs fg hfg)
    obtain ⟨p, hp, _, hfn, _⟩ := mergeGroupStep_base hgsorted hm
    refine ⟨m, hm, ?_⟩
    have hpg : p ∈ fg.2 := mem_of_head? hp
    rw [groupByFilename_group_eq rs fg hfg] at hpg
    have := (List.mem_filter.mp hpg).2
    rw [hfn]
    exact beq_iff_eq.mp this
  refine ⟨?_, ?_, ?_, ?_⟩
  · rw [hnames]
    exact groupByFilename_keys_nodup rs
  · intro f
    rw [hnames]
    exact mem_groupByFilename_keys rs f
  · apply pairwise_filterMap_of mergeGroupStep _ (groupByFilename_heads_pairwise rs hsorted)
    intro fg1 hfg1 fg2 hfg2 m1 m2 hS h1 h2
    obtain ⟨p1, hp1, hs1, _⟩ := mergeGroupStep_base (groupByFilename_group_sorted rs hsorted fg1 hfg1) h1
    obtain ⟨p2, hp2, hs2, _⟩ := mergeGroupStep_base (groupByFilename_group_sorted rs hsorted fg2 hfg2) h2
    rw [hs1, hs2]
    exact hS p1 hp1 p2 hp2
  · intro m hm
    obtain ⟨fg, hfg, hstep⟩ := List.mem_filterMap.mp hm
    have hgsorted := groupByFilename_group_sorted rs hsorted fg hfg
    obtain ⟨p, hp, _, hfn, _⟩ := mergeGroupStep_base hgsorted hstep
    have hkey : m.base.filename = fg.1 := by
      have hpg : p ∈ fg.2 := mem_of_head? hp
      rw [groupByFilename_group_eq rs fg hfg] at hpg
      rw [hfn]
      exact beq_iff_eq.mp (List.mem_filter.mp hpg).2
    have hfilter : rs.filter (fun r => r.filename == m.base.filename) = fg.2 := by
      rw [hkey, groupByFilename_group_eq rs fg hfg]
    rw [hfilter]
    have hadd := mergeGroupStep_additional hgsorted hstep
    exact ⟨fun h1 => (hadd.1 h1).1,
      fun h2 => by
        obtain ⟨l, hl, hlen, _⟩ := hadd.2.1 h2
        exact ⟨l, hl, hlen⟩⟩

/-! ## Concrete corpora for witnesses and counterexamples -/

/-- The single chunk of the scenario document: one page holding exactly the
sentence "Annual budget planning begins in Q3.". -/
def budgetChunk : Chunk :=
  { id := "chunk_0"
    content := "Annual budget planning begins in Q3."
    pageNumber := 1
    chunkNumber := 1
    embedding := none
    metadata :=
      { documentSection := "Introduction", wordCount := 6, pageIndex := 0, sentenceIndex := 0 } }

/-- The scenario document. -/
def budgetDoc : Document := { filename := "policy.pdf", chunks := [budgetChunk] }

/-- A keyword-method raw candidate used to instantiate merge statements. -/
def sampleResult (fn : String) (idx : Nat) : SearchResult :=
  { id := "result_0_" ++ toString idx
    content := "Annual budget planning begins in Q3."
    filename := fn
    similarity_score := 1/2
    chunk_index := idx + 1
    pageNumber := 1
    documentTitle := fn
    confidence := 1/2
    summary := none
    contextBefore := []
    contextAfter := []
    queryTerms := []
    semanticMatches := []
    actualChunk := budgetChunk
    searchMethod := "keyword" }

/-- Witness for the merge contract: two documents, one contributing two
candidates and one contributing a single candidate. -/
theorem mergeDocumentMatches_contract_witness :
    (((mergeDocumentMatches
        [sampleResult "a.pdf" 0, sampleResult "a.pdf" 1, sampleResult "b.pdf" 0]).map
          (fun m => m.base.filename)).Nodup ∧
    (∀ f : String, f ∈ (mergeDocumentMatches
        [sampleResult "a.pdf" 0, sampleResult "a.pdf" 1, sampleResult "b.pdf" 0]).map
          (fun m => m.base.filename) ↔
        f ∈ [sampleResult "a.pdf" 0, sampleResult "a.pdf" 1, sampleResult "b.pdf" 0].map
          (fun r => r.filename)) ∧
    (mergeDocumentMatches
        [sampleResult "a.pdf" 0, sampleResult "a.pdf" 1, sampleResult "b.pdf" 0]).Pairwise
        (fun m1 m2 => m2.base.similarity_score ≤ m1.base.similarity_score) ∧
    (∀ m ∈ mergeDocumentMatches
        [sampleResult "a.pdf" 0, sampleResult "a.pdf" 1, sampleResult "b.pdf" 0],
      (([sampleResult "a.pdf" 0, sampleResult "a.pdf" 1, sampleResult "b.pdf" 0].filter
          (fun r => r.filename == m.base.filename)).length = 1 →
          m.additionalMatches = none) ∧
      (2 ≤ ([sampleResult "a.pdf" 0, sampleResult "a.pdf" 1, sampleResult "b.pdf" 0].filter
          (fun r => r.filename == m.base.filename)).length →
          ∃ l, m.additionalMatches = some l ∧
            l.length = ([sampleResult "a.pdf" 0, sampleResult "a.pdf" 1,
              sampleResult "b.pdf" 0].filter
                (fun r => r.filename == m.base.filename)).length - 1))) :=
  mergeDocumentMatches_contract
    [sampleResult "a.pdf" 0, sampleResult "a.pdf" 1, sampleResult "b.pdf" 0]
    (by simp [List.pairwise_cons, sampleResult])

/-! ## C5: RAG with no candidate above the threshold -/

/-- C5: for every rag-mode query for which no chunk reaches the 0.4 relevance
threshold (scores as the source computes them, with the chunk's own words as
keywords), `simulateRAG` returns the fixed "no matching information found"
answer with an empty sources list — and in particular never throws. -/
theorem simulateRAG_no_candidates (st : ServiceState) (query : String)
    (h : ∀ doc ∈ st.documents, ∀ chunk ∈ doc.chunks,
      calculateRelevance chunk.content query
        (jsSplitChar ' ' (jsToLower chunk.content)) ≤ 2/5) :
    simulateRAG st query = Except.ok { answer := noMatchAnswer query, sources := [] } := by
  have hempty : ragRelevantChunks st.documents query = [] := by
    unfold ragRelevantChunks
    rw [List.bind_eq_nil]
    intro doc hdoc
    rw [List.filterMap_eq_nil]
    intro chunk hchunk
    simp only
    rw [if_neg]
    exact not_lt.mpr (h doc hdoc chunk hchunk)
  unfold simulateRAG
  rw [hempty]
  rfl

/-- A document whose single chunk has no keyword of length above 2 and cannot
match the witness query, so its RAG relevance is zero. -/
def lowScoreDoc : Document :=
  { filename := "notes.pdf"
    chunks := [{ id := "chunk_0"
                 content := "Hi a."
                 pageNumber := 1
                 chunkNumber := 1
                 embedding := none
                 metadata := { documentSection := "Introduction", wordCount := 2,
                               pageIndex := 0, sentenceIndex := 0 } }] }

theorem simulateRAG_no_candidates_witness :
    simulateRAG { documents := [lowScoreDoc] } "zebra"
      = Except.ok { answer := noMatchAnswer "zebra", sources := [] } := by
  refine simulateRAG_no_candidates _ _ ?_
  intro doc hdoc chunk hchunk
  simp only [ServiceState.documents, lowScoreDoc, List.mem_singleton] at hdoc
  subst hdoc
  simp only [List.mem_singleton] at hchunk
  subst hchunk
  rw [calculateRelevance_closed]
  unfold keywordScoreSpec
  have hkw : jsSplitChar ' ' (jsToLower "Hi a.") = ["hi", "a."] := by decide
  rw [hkw]
  have hfil : (["hi", "a."] : List String).filter (fun k => k.length > 2) = [] := by decide
  rw [hfil]
  have hsub : containsSubstr (jsToLower "zebra").data (jsToLower "Hi a.").data = false := by
    decide
  have hlen : ¬ (("Hi a." : String).length > 100) := by decide
  simp only [hsub, hlen, Bool.false_eq_true, if_false, List.map_nil, List.sum_nil]
  norm_num

/-! ## C6: RAG sources construction throws when candidates exist -/

lemma budget_rag_relevance :
    calculateRelevance "Annual budget planning begins in Q3." "budget"
      (jsSplitChar ' ' (jsToLower "Annual budget planning begins in Q3.")) = 1 := by
  rw [calculateRelevance_closed]
  unfold keywordScoreSpec
  have hkw : jsSplitChar ' ' (jsToLower "Annual budget planning begins in Q3.")
      = ["annual", "budget", "planning", "begins", "in", "q3."] := by decide
  rw [hkw]
  have h1 : keywordHits "Annual budget planning begins in Q3." "annual" = 1 := by decide
  have h2 : keywordHits "Annual budget planning begins in Q3." "budget" = 1 := by decide
  have h3 : keywordHits "Annual budget planning begins in Q3." "planning" = 1 := by decide
  have h4 : keywordHits "Annual budget planning begins in Q3." "begins" = 1 := by decide
  have h5 : keywordHits "Annual budget planning begins in Q3." "q3." = 1 := by decide
  have hsub : containsSubstr (jsToLower "budget").data
      (jsToLower "Annual budget planning begins in Q3.").data = true := by decide
  have hlen : ¬ (("Annual budget planning begins in Q3." : String).length > 100) := by decide
  have hfil : (["annual", "budget", "planning", "begins", "in", "q3."] : List String).filter
      (fun k => k.length > 2) = ["annual", "budget", "planning", "begins", "q3."] := by decide
  rw [hfil]
  simp only [h1, h2, h3, h4, h5, hsub, hlen, List.map_cons, List.map_nil, List.sum_cons,
    List.sum_nil, if_true, Bool.false_eq_true, if_false, Nat.cast_one]
  norm_num [min_def]

/-- C6 evidence: on a corpus with one chunk scoring above the RAG threshold,
`simulateRAG` throws (the sources map at src/app.js:1096-1103 reads
`chunk.metadata.documentSection` on collected candidates that carry no
`metadata` property) instead of returning the annotated sources list. -/
theorem simulateRAG_sources_throw :
    simulateRAG { documents := [budgetDoc] } "budget"
      = Except.error "TypeError: cannot read documentSection of undefined" := by
  have hlist : ragRelevantChunks [budgetDoc] "budget"
      = [{ content := "Annual budget planning begins in Q3."
           filename := "policy.pdf"
           pageNumber := 1
           chunkNumber := 1
           similarity_score := 1
           documentSection := "Introduction" }] := by
    unfold ragRelevantChunks budgetDoc budgetChunk
    simp only [List.flatMap_cons, List.flatMap_nil, List.filterMap_cons, List.filterMap_nil,
      List.append_nil, budget_rag_relevance]
    norm_num
  unfold simulateRAG
  rw [show ({ documents := [budgetDoc] } : ServiceState).documents = [budgetDoc] from rfl,
    hlist]
  rfl

/-! ## Characterisation of the raw candidate lists -/

lemma mem_enumFrom_of_mem {α : Type} {l : List α} {a : α} (h : a ∈ l) :
    ∀ n, ∃ i, (i, a) ∈ l.enumFrom n := by
  induction l with
  | nil => cases h
  | cons x xs ih =>
    intro n
    rcases List.mem_cons.mp h with rfl | h2
    · exact ⟨n, by simp [List.enumFrom]⟩
    · obtain ⟨i, hi⟩ := ih h2 (n + 1)
      exact ⟨i, by simp [List.enumFrom, hi]⟩

lemma mem_enum_of_mem {α : Type} {l : List α} {a : α} (h : a ∈ l) :
    ∃ i, (i, a) ∈ l.enum := mem_enumFrom_of_mem h 0

lemma insertDescBy_pairwise {α : Type} (key : α → ℚ) (a : α) {l : List α}
    (h : l.Pairwise (fun x y => key y ≤ key x)) :
    (insertDescBy key a l).Pairwise (fun x y => key y ≤ key x) := by
  induction l with
  | nil => simp [insertDescBy]
  | cons b rest ih =>
    obtain ⟨hb, hrest⟩ := List.pairwise_cons.mp h
    by_cases hba : key b ≤ key a
    · simp only [insertDescBy, hba, if_true]
      refine List.Pairwise.cons ?_ h
      intro x hx
      rcases List.mem_cons.mp hx with rfl | hx2
      · exact hba
      · exact le_trans (hb x hx2) hba
    · simp only [insertDescBy, hba, if_false]
      refine List.Pairwise.cons ?_ (ih hrest)
      intro x hx
      rcases (mem_insertDescBy key).mp hx with rfl | hx2
      · exact le_of_lt (not_le.mp hba)
      · exact hb x hx2

lemma sortDescBy_pairwise {α : Type} (key : α → ℚ) (l : List α) :
    (sortDescBy key l).Pairwise (fun x y => key y ≤ key x) := by
  induction l with
  | nil => simp [sortDescBy]
  | cons a rest ih =>
    simp only [sortDescBy, List.foldr_cons] at *
    exact insertDescBy_pairwise key a ih

/-- Shared characterisation (containment direction): every keyword-path raw
candidate carries method "keyword", its score is the relevance of its own
chunk, and that score strictly exceeds `0.3`. -/
lemma keywordRawResults_spec (documents : List Document) (query : String) :
    ∀ r ∈ keywordRawResults documents query,
      r.searchMethod = "keyword" ∧
      r.similarity_score = calculateRelevance r.actualChunk.content query
        (jsSplitChar ' ' (jsToLower query)) ∧
      r.similarity_score > 3/10 := by
  intro r hr
  unfold keywordRawResults at hr
  obtain ⟨dp, _, hr2⟩ := List.mem_flatMap.mp hr
  obtain ⟨cp, _, hr3⟩ := List.mem_filterMap.mp hr2
  simp only at hr3
  split at hr3
  · rename_i hgt
    have : mkKeywordResult dp.2 dp.1 cp.2 cp.1 query
        (jsSplitChar ' ' (jsToLower query))
        (calculateRelevance cp.2.content query (jsSplitChar ' ' (jsToLower query))) = r :=
      Option.some_inj.mp hr3
    subst this
    exact ⟨rfl, rfl, hgt⟩
  · exact absurd hr3 (by simp)

/-- Shared characterisation (inclusion direction): a chunk of the corpus whose
relevance strictly exceeds `0.3` contributes a keyword-path raw candidate. -/
lemma keywordRawResults_complete {documents : List Document} {query : String}
    {doc : Document} (hdoc : doc ∈ documents) {chunk : Chunk}
    (hchunk : chunk ∈ doc.chunks)
    (hgt : calculateRelevance chunk.content query
      (jsSplitChar ' ' (jsToLower query)) > 3/10) :
    ∃ r ∈ keywordRawResults documents query,
      r.actualChunk = chunk ∧ r.filename = doc.filename ∧
      r.similarity_score = calculateRelevance chunk.content query
        (jsSplitChar ' ' (jsToLower query)) := by
  obtain ⟨i, hi⟩ := mem_enum_of_mem hdoc
  obtain ⟨j, hj⟩ := mem_enum_of_mem hchunk
  refine ⟨mkKeywordResult doc i chunk j query (jsSplitChar ' ' (jsToLower query))
    (calculateRelevance chunk.content query (jsSplitChar ' ' (jsToLower query))),
    ?_, rfl, rfl, rfl⟩
  unfold keywordRawResults
  refine List.mem_flatMap.mpr ⟨(i, doc), hi, ?_⟩
  refine List.mem_filterMap.mpr ⟨(j, chunk), hj, ?_⟩
  simp only [if_pos hgt]

/-- Shared characterisation of the RAG candidate loop (containment). -/
lemma ragRelevantChunks_spec (documents : List Document) (query : String) :
    ∀ s ∈ ragRelevantChunks documents query,
      s.similarity_score > 2/5 ∧ s.metadata = none ∧
      s.similarity_score = calculateRelevance s.content query
        (jsSplitChar ' ' (jsToLower s.content)) := by
  intro s hs
  unfold ragRelevantChunks at hs
  obtain ⟨doc, _, hs2⟩ := List.mem_flatMap.mp hs
  obtain ⟨chunk, _, hs3⟩ := List.mem_filterMap.mp hs2
  simp only at hs3
  split at hs3
  · rename_i hgt
    have := Option.some_inj.mp hs3
    subst this
    exact ⟨hgt, rfl, rfl⟩
  · exact absurd hs3 (by simp)

/-- Shared characterisation of the RAG candidate loop (inclusion). -/
lemma ragRelevantChunks_complete {documents : List Document} {query : String}
    {doc : Document} (hdoc : doc ∈ documents) {chunk : Chunk}
    (hchunk : chunk ∈ doc.chunks)
    (hgt : calculateRelevance chunk.content query
      (jsSplitChar ' ' (jsToLower chunk.content)) > 2/5) :
    ∃ s ∈ ragRelevantChunks documents query,
      s.content = chunk.content ∧ s.filename = doc.filename ∧
      s.similarity_score = calculateRelevance chunk.content query
        (jsSplitChar ' ' (jsToLower chunk.content)) := by
  refine ⟨{ content := chunk.content
            filename := doc.filename
            pageNumber := chunk.pageNumber
            chunkNumber := chunk.chunkNumber
            similarity_score := calculateRelevance chunk.content query
              (jsSplitChar ' ' (jsToLower chunk.content))
            documentSection := chunk.metadata.documentSection }, ?_, rfl, rfl, rfl⟩
  unfold ragRelevantChunks
  refine List.mem_flatMap.mpr ⟨doc, hdoc, ?_⟩
  refine List.mem_filterMap.mpr ⟨chunk, hchunk, ?_⟩
  simp only [if_pos hgt]

/-- Shared characterisation of the vector-path raw candidates: each comes from
a vector hit, keeps its score untouched, and carries method "vector". -/
lemma vectorRawResults_spec (documents : List Document) (db : VectorDB)
    (queryEmbedding : List ℚ) (query : String) :
    ∀ r ∈ vectorRawResults documents db queryEmbedding query,
      ∃ p ∈ db.search queryEmbedding 10,
        r.similarity_score = p.2 ∧ r.searchMethod = "vector" := by
  intro r hr
  unfold vectorRawResults at hr
  obtain ⟨p, hp, hr2⟩ := List.mem_filterMap.mp hr
  obtain ⟨fc, _, hfc2⟩ := Option.map_eq_some'.mp hr2
  subst hfc2
  exact ⟨p, hp, rfl, rfl⟩

/-- Shared structure of merged keyword-search output. -/
lemma mem_keywordBasedSearch {documents : List Document} {query : String}
    {m : MergedSearchResult} (hm : m ∈ keywordBasedSearch documents query) :
    (∃ p ∈ keywordRawResults documents query,
      m.base.similarity_score = p.similarity_score ∧ m.base.filename = p.filename ∧
      m.base.searchMethod = p.searchMethod ∧ m.base.summary = p.summary) ∧
    (∀ l, m.additionalMatches = some l → ∀ x ∈ l, x ∈ keywordRawResults documents query) := by
  unfold keywordBasedSearch at hm
  have h := mem_mergeDocumentMatches (sortDescBy_pairwise _ _) hm
  refine ⟨?_, ?_⟩
  · obtain ⟨p, hp, h1, h2, h3, h4, _⟩ := h.1
    exact ⟨p, (mem_sortDescBy _).mp hp, h1, h2, h3, h4⟩
  · intro l hl x hx
    exact (mem_sortDescBy _).mp (h.2 l hl x hx)

/-- Shared structure of merged vector-search output. -/
lemma mem_vectorSimilaritySearch {documents : List Document} {db : VectorDB}
    {queryEmbedding : List ℚ} {query : String} {m : MergedSearchResult}
    (hm : m ∈ vectorSimilaritySearch documents db queryEmbedding query) :
    (∃ p ∈ vectorRawResults documents db queryEmbedding query,
      m.base.similarity_score = p.similarity_score ∧ m.base.filename = p.filename ∧
      m.base.searchMethod = p.searchMethod ∧ m.base.summary = p.summary) ∧
    (∀ l, m.additionalMatches = some l → ∀ x ∈ l,
      x ∈ vectorRawResults documents db queryEmbedding query) := by
  unfold vectorSimilaritySearch at hm
  have h := mem_mergeDocumentMatches (sortDescBy_pairwise _ _) hm
  refine ⟨?_, ?_⟩
  · obtain ⟨p, hp, h1, h2, h3, h4, _⟩ := h.1
    exact ⟨p, (mem_sortDescBy _).mp hp, h1, h2, h3, h4⟩
  · intro l hl x hx
    exact (mem_sortDescBy _).mp (h.2 l hl x hx)

/-! ## C2: the inclusion thresholds are strict -/

/-- C2 (amended): a chunk contributes a candidate exactly when its relevance
score STRICTLY exceeds the mode minimum — `> 0.3` on the keyword search path
and `> 0.4` on the RAG path (src/app.js:643 and 1056); a chunk whose score
equals the minimum exactly is excluded. -/
theorem inclusion_iff_strictly_above_threshold (documents : List Document)
    (query : String) (doc : Document) (hdoc : doc ∈ documents) (chunk : Chunk)
    (hchunk : chunk ∈ doc.chunks) :
    ((∃ r ∈ keywordRawResults documents query, r.actualChunk = chunk) ↔
      calculateRelevance chunk.content query (jsSplitChar ' ' (jsToLower query)) > 3/10) ∧
    ((∃ s ∈ ragRelevantChunks documents query, s.content = chunk.content) ↔
      calculateRelevance chunk.content query
        (jsSplitChar ' ' (jsToLower chunk.content)) > 2/5) := by
  constructor
  · constructor
    · rintro ⟨r, hr, hrc⟩
      have h := keywordRawResults_spec documents query r hr
      rw [← hrc]
      rw [← h.2.1]
      exact h.2.2
    · intro hgt
      obtain ⟨r, hr, hrc, _⟩ := keywordRawResults_complete hdoc hchunk hgt
      exact ⟨r, hr, hrc⟩
  · constructor
    · rintro ⟨s, hs, hsc⟩
      have h := ragRelevantChunks_spec documents query s hs
      rw [← hsc]
      rw [← h.2.2]
      exact h.1
    · intro hgt
      obtain ⟨s, hs, hsc, _⟩ := ragRelevantChunks_complete hdoc hchunk hgt
      exact ⟨s, hs, hsc⟩

/-- A chunk engineered to score exactly 0.3 for the query "apple zebra": one
occurrence of "apple" (0.3), no other keyword, no verbatim match, length at
most 100. -/
def applePieChunk : Chunk :=
  { id := "chunk_0"
    content := "I like apple pie"
    pageNumber := 1
    chunkNumber := 1
    embedding := none
    metadata :=
      { documentSection := "Introduction", wordCount := 4, pageIndex := 0, sentenceIndex := 0 } }

/-- The document holding `applePieChunk`. -/
def applePieDoc : Document := { filename := "recipes.pdf", chunks := [applePieChunk] }

lemma applePie_relevance :
    calculateRelevance "I like apple pie" "apple zebra"
      (jsSplitChar ' ' (jsToLower "apple zebra")) = 3/10 := by
  rw [calculateRelevance_closed]
  unfold keywordScoreSpec
  have hkw : jsSplitChar ' ' (jsToLower "apple zebra") = ["apple", "zebra"] := by decide
  rw [hkw]
  have hfil : (["apple", "zebra"] : List String).filter (fun k => k.length > 2)
      = ["apple", "zebra"] := by decide
  rw [hfil]
  have h1 : keywordHits "I like apple pie" "apple" = 1 := by decide
  have h2 : keywordHits "I like apple pie" "zebra" = 0 := by decide
  have hsub : containsSubstr (jsToLower "apple zebra").data
      (jsToLower "I like apple pie").data = false := by decide
  have hlen : ¬ (("I like apple pie" : String).length > 100) := by decide
  simp only [h1, h2, hsub, hlen, List.map_cons, List.map_nil, List.sum_cons, List.sum_nil,
    Bool.false_eq_true, if_false, Nat.cast_one, Nat.cast_zero]
  norm_num [min_def]

/-- C2 counterexample: a chunk whose relevance equals the search-mode minimum
0.3 exactly yields no candidate — the inclusion test at src/app.js:643 is the
strict `relevance > 0.3`, so "score equals the minimum implies included" is
false on the code. -/
theorem score_at_minimum_excluded :
    calculateRelevance "I like apple pie" "apple zebra"
        (jsSplitChar ' ' (jsToLower "apple zebra")) = 3/10
    ∧ keywordRawResults [applePieDoc] "apple zebra" = []
    ∧ keywordBasedSearch [applePieDoc] "apple zebra" = [] := by
  have hraw : keywordRawResults [applePieDoc] "apple zebra" = [] := by
    unfold keywordRawResults
    have henum : ([applePieDoc] : List Document).enum = [(0, applePieDoc)] := rfl
    rw [henum]
    simp only [List.flatMap_cons, List.flatMap_nil, List.append_nil]
    have henum2 : applePieDoc.chunks.enum = [(0, applePieChunk)] := rfl
    simp only [henum2, List.filterMap_cons, List.filterMap_nil]
    have hc : applePieChunk.content = "I like apple pie" := rfl
    simp only [hc, applePie_relevance]
    norm_num
  refine ⟨applePie_relevance, hraw, ?_⟩
  unfold keywordBasedSearch
  rw [hraw]
  simp [mergeDocumentMatches, groupByFilename, sortDescBy]

/-- Witness instantiating the amended C2 statement on the exact-0.3 corpus. -/
theorem inclusion_iff_strictly_above_threshold_witness :
    ((∃ r ∈ keywordRawResults [applePieDoc] "apple zebra", r.actualChunk = applePieChunk) ↔
      calculateRelevance applePieChunk.content "apple zebra"
        (jsSplitChar ' ' (jsToLower "apple zebra")) > 3/10) ∧
    ((∃ s ∈ ragRelevantChunks [applePieDoc] "apple zebra",
        s.content = applePieChunk.content) ↔
      calculateRelevance applePieChunk.content "apple zebra"
        (jsSplitChar ' ' (jsToLower applePieChunk.content)) > 2/5) :=
  inclusion_iff_strictly_above_threshold [applePieDoc] "apple zebra" applePieDoc
    (by simp) applePieChunk (by simp [applePieDoc])

/-! ## C7: degradation to keyword search -/

/-- C7: when no embedding pipeline was loaded (`this.embeddings` unset),
every search call makes zero calls to the embedding provider and every
returned candidate — primary and additional — carries method "keyword". -/
theorem search_degrades_to_keyword (st : ServiceState) (query : String)
    (h : st.embeddings = none) :
    (simulateSearch st query).2 = 0 ∧
    ∀ m ∈ (simulateSearch st query).1,
      m.base.searchMethod = "keyword" ∧
      ∀ l, m.additionalMatches = some l → ∀ r ∈ l, r.searchMethod = "keyword" := by
  have hout : simulateSearch st query
      = if st.documents.isEmpty then ([], 0)
        else (keywordBasedSearch st.documents query, 0) := by
    unfold simulateSearch
    rw [h]
  rw [hout]
  by_cases hd : st.documents.isEmpty
  · simp [hd]
  · simp only [hd, Bool.false_eq_true, if_false]
    refine ⟨by trivial, ?_⟩
    intro m hm
    have h2 := mem_keywordBasedSearch hm
    obtain ⟨p, hp, _, _, h3, _⟩ := h2.1
    refine ⟨?_, ?_⟩
    · rw [h3]
      exact (keywordRawResults_spec _ _ p hp).1
    · intro l hl r hr
      exact (keywordRawResults_spec _ _ r (h2.2 l hl r hr)).1

theorem search_degrades_to_keyword_witness :
    (simulateSearch { documents := [budgetDoc] } "budget").2 = 0 ∧
    ∀ m ∈ (simulateSearch { documents := [budgetDoc] } "budget").1,
      m.base.searchMethod = "keyword" ∧
      ∀ l, m.additionalMatches = some l → ∀ r ∈ l, r.searchMethod = "keyword" :=
  search_degrades_to_keyword { documents := [budgetDoc] } "budget" rfl

/-! ## C8: scores stay in the unit interval -/

/-- C8: every candidate returned by a search — through the vector path or the
keyword path — carries a score in `[0, 1]`.  The external vector index is
assumed to honour its contract from the specification (scores normalised to
`[0, 1]`); keyword scores are bounded unconditionally by the `min(…, 1.0)`
cap and the non-negative accumulation. -/
theorem search_scores_unit_interval (st : ServiceState) (query : String)
    (hdb : ∀ db, st.vectorDB = some db → ∀ queryEmbedding k,
      ∀ p ∈ db.search queryEmbedding k, 0 ≤ p.2 ∧ p.2 ≤ 1) :
    ∀ m ∈ (simulateSearch st query).1,
      (0 ≤ m.base.similarity_score ∧ m.base.similarity_score ≤ 1) ∧
      ∀ l, m.additionalMatches = some l → ∀ r ∈ l,
        0 ≤ r.similarity_score ∧ r.similarity_score ≤ 1 := by
  have hkw : ∀ r ∈ keywordRawResults st.documents query,
      0 ≤ r.similarity_score ∧ r.similarity_score ≤ 1 := by
    intro r hr
    rw [(keywordRawResults_spec _ _ r hr).2.1]
    exact calculateRelevance_mem_unit _ _ _
  have hkm : ∀ m ∈ keywordBasedSearch st.documents query,
      (0 ≤ m.base.similarity_score ∧ m.base.similarity_score ≤ 1) ∧
      ∀ l, m.additionalMatches = some l → ∀ r ∈ l,
        0 ≤ r.similarity_score ∧ r.similarity_score ≤ 1 := by
    intro m hm
    have h2 := mem_keywordBasedSearch hm
    obtain ⟨p, hp, hs, _⟩ := h2.1
    exact ⟨hs ▸ hkw p hp, fun l hl r hr => hkw r (h2.2 l hl r hr)⟩
  unfold simulateSearch
  by_cases hd : st.documents.isEmpty
  · simp [hd]
  · simp only [hd, Bool.false_eq_true, if_false]
    cases he : st.embeddings with
    | none => exact hkm
    | some embedFn =>
      cases hv : st.vectorDB with
      | none => exact hkm
      | some db =>
        cases hq : embedFn query with
        | none =>
          simp only [hq]
          exact hkm
        | some queryEmbedding =>
          simp only [hq]
          intro m hm
          have hvw : ∀ r ∈ vectorRawResults st.documents db queryEmbedding query,
              0 ≤ r.similarity_score ∧ r.similarity_score ≤ 1 := by
            intro r hr
            obtain ⟨p, hp, hsc, _⟩ := vectorRawResults_spec _ _ _ _ r hr
            rw [hsc]
            exact hdb db hv queryEmbedding 10 p hp
          have h2 := mem_vectorSimilaritySearch hm
          obtain ⟨p, hp, hs, _⟩ := h2.1
          exact ⟨hs ▸ hvw p hp, fun l hl r hr => hvw r (h2.2 l hl r hr)⟩

theorem search_scores_unit_interval_witness :
    (∀ db, ({ documents := [budgetDoc] } : ServiceState).vectorDB = some db →
      ∀ queryEmbedding k, ∀ p ∈ db.search queryEmbedding k, 0 ≤ p.2 ∧ p.2 ≤ 1) ∧
    (∀ m ∈ (simulateSearch { documents := [budgetDoc] } "budget").1,
      (0 ≤ m.base.similarity_score ∧ m.base.similarity_score ≤ 1) ∧
      ∀ l, m.additionalMatches = some l → ∀ r ∈ l,
        0 ≤ r.similarity_score ∧ r.similarity_score ≤ 1) :=
  ⟨by intro db hdb; simp at hdb,
   search_scores_unit_interval { documents := [budgetDoc] } "budget"
    (by intro db hdb; simp at hdb)⟩

/-! ## C10: no threshold on the vector path -/

/-- C10: every vector hit whose chunk id resolves becomes a candidate with the
hit's score passed through untouched — no minimum-score test is applied on the
vector path, so a vector candidate may carry an arbitrarily low score; the
`0.3`/`0.4` minima apply only on the keyword-scored paths. -/
theorem vector_candidates_unthresholded (documents : List Document) (db : VectorDB)
    (queryEmbedding : List ℚ) (query : String) (p : String × ℚ)
    (hp : p ∈ db.search queryEmbedding 10) (fc : FoundChunk)
    (hfc : findChunkById documents p.1 = some fc) :
    (∃ r ∈ vectorRawResults documents db queryEmbedding query,
      r.similarity_score = p.2 ∧ r.searchMethod = "vector") ∧
    (∀ docs2 : List Document, ∀ q2 : String, ∀ r ∈ keywordRawResults docs2 q2,
      r.similarity_score > 3/10) ∧
    (∀ docs2 : List Document, ∀ q2 : String, ∀ s ∈ ragRelevantChunks docs2 q2,
      s.similarity_score > 2/5) := by
  refine ⟨?_, ?_, ?_⟩
  · refine ⟨mkVectorResult fc query p.2, ?_, rfl, rfl⟩
    unfold vectorRawResults
    refine List.mem_filterMap.mpr ⟨p, hp, ?_⟩
    rw [hfc]
    rfl
  · intro docs2 q2 r hr
    exact (keywordRawResults_spec _ _ r hr).2.2
  · intro docs2 q2 s hs
    exact (ragRelevantChunks_spec _ _ s hs).1

/-- An external vector index returning a single hit with a negative score. -/
def lowScoreDB : VectorDB := { search := fun _ _ => [("chunk_0", -(1/2))] }

theorem vector_candidates_unthresholded_witness :
    (∃ r ∈ vectorRawResults [budgetDoc] lowScoreDB [] "budget",
      r.similarity_score = -(1/2) ∧ r.searchMethod = "vector") ∧
    (∀ docs2 : List Document, ∀ q2 : String, ∀ r ∈ keywordRawResults docs2 q2,
      r.similarity_score > 3/10) ∧
    (∀ docs2 : List Document, ∀ q2 : String, ∀ s ∈ ragRelevantChunks docs2 q2,
      s.similarity_score > 2/5) :=
  vector_candidates_unthresholded [budgetDoc] lowScoreDB [] "budget" ("chunk_0", -(1/2))
    (by simp [lowScoreDB]) ⟨budgetChunk, budgetDoc, 0, 0⟩ rfl

/-! ## C9: the budget-planning scenario -/

/-- The extracted pages of the scenario: one page holding exactly the
sentence "Annual budget planning begins in Q3.". -/
def scenarioPages : List PageData :=
  [{ pageNumber := 1, text := "Annual budget planning begins in Q3." }]

/-- The scenario service state: the single document ingested through the
chunker, no embedding pipeline loaded. -/
def scenarioState : ServiceState :=
  { documents := [{ filename := "policy.pdf", chunks := createTextChunks none scenarioPages }] }

lemma scenario_chunks : createTextChunks none scenarioPages = [budgetChunk] := by decide

lemma scenario_relevance :
    calculateRelevance "Annual budget planning begins in Q3."
      "When does budget planning begin"
      (jsSplitChar ' ' (jsToLower "When does budget planning begin")) = 9/10 := by
  rw [calculateRelevance_closed]
  unfold keywordScoreSpec
  have hkw : jsSplitChar ' ' (jsToLower "When does budget planning begin")
      = ["when", "does", "budget", "planning", "begin"] := by decide
  rw [hkw]
  have hfil : (["when", "does", "budget", "planning", "begin"] : List String).filter
      (fun k => k.length > 2) = ["when", "does", "budget", "planning", "begin"] := by decide
  rw [hfil]
  have h1 : keywordHits "Annual budget planning begins in Q3." "when" = 0 := by decide
  have h2 : keywordHits "Annual budget planning begins in Q3." "does" = 0 := by decide
  have h3 : keywordHits "Annual budget planning begins in Q3." "budget" = 1 := by decide
  have h4 : keywordHits "Annual budget planning begins in Q3." "planning" = 1 := by decide
  have h5 : keywordHits "Annual budget planning begins in Q3." "begin" = 1 := by decide
  have hsub : containsSubstr (jsToLower "When does budget planning begin").data
      (jsToLower "Annual budget planning begins in Q3.").data = false := by decide
  have hlen : ¬ (("Annual budget planning begins in Q3." : String).length > 100) := by decide
  simp only [h1, h2, h3, h4, h5, hsub, hlen, List.map_cons, List.map_nil, List.sum_cons,
    List.sum_nil, Bool.false_eq_true, if_false, Nat.cast_one, Nat.cast_zero]
  norm_num [min_def]

lemma scenario_condition :
    calculateRelevance budgetChunk.content "When does budget planning begin"
      (jsSplitChar ' ' (jsToLower "When does budget planning begin")) > 3/10 := by
  have hc : budgetChunk.content = "Annual budget planning begins in Q3." := rfl
  rw [hc, scenario_relevance]
  norm_num

lemma scenario_raw :
    keywordRawResults [budgetDoc] "When does budget planning begin"
      = [mkKeywordResult budgetDoc 0 budgetChunk 0 "When does budget planning begin"
          (jsSplitChar ' ' (jsToLower "When does budget planning begin"))
          (calculateRelevance budgetChunk.content "When does budget planning begin"
            (jsSplitChar ' ' (jsToLower "When does budget planning begin")))] := by
  unfold keywordRawResults
  have henum : ([budgetDoc] : List Document).enum = [(0, budgetDoc)] := rfl
  rw [henum]
  simp only [List.flatMap_cons, List.flatMap_nil, List.append_nil]
  have henum2 : budgetDoc.chunks.enum = [(0, budgetChunk)] := rfl
  simp only [henum2, List.filterMap_cons, List.filterMap_nil]
  rw [if_pos scenario_condition]

/-- C9: for a corpus of one document whose only page contains exactly the
sentence "Annual budget planning begins in Q3.", the keyword-path search for
"When does budget planning begin" returns exactly one candidate, from that
document, with zero embedding-provider calls, and its summary is non-null and
contains that sentence. -/
theorem budget_scenario_search :
    ((simulateSearch scenarioState "When does budget planning begin").1.map
        (fun m => (m.base.filename, m.base.summary)))
      = [("policy.pdf",
          some "Summary from policy.pdf: Annual budget planning begins in Q3.")]
    ∧ (simulateSearch scenarioState "When does budget planning begin").2 = 0
    ∧ containsSubstr "Annual budget planning begins in Q3.".data
        "Summary from policy.pdf: Annual budget planning begins in Q3.".data = true := by
  have hstate : scenarioState = { documents := [budgetDoc] } := by
    unfold scenarioState budgetDoc
    rw [scenario_chunks]
  have hsearch : simulateSearch scenarioState "When does budget planning begin"
      = (keywordBasedSearch [budgetDoc] "When does budget planning begin", 0) := by
    rw [hstate]
    rfl
  rw [hsearch]
  refine ⟨?_, rfl, by decide⟩
  show (keywordBasedSearch [budgetDoc] "When does budget planning begin").map _ = _
  unfold keywordBasedSearch
  rw [scenario_raw]
  have hsum : generateRealSummary "Annual budget planning begins in Q3."
      "When does budget planning begin" "policy.pdf"
      = some "Summary from policy.pdf: Annual budget planning begins in Q3." := by decide
  simp only [sortDescBy, List.foldr_cons, List.foldr_nil, insertDescBy, groupByFilename,
    List.filter_nil, mergeDocumentMatches, List.filterMap_cons, List.filterMap_nil,
    mergeGroupStep, List.map_cons, List.map_nil, mkKeywordResult, budgetDoc, budgetChunk,
    hsum]

end NetlifyPDFService
